import Mathlib

/-!
Verification of the SimulSolve problem-generation and solving engine.

The definitions below are a shallow embedding of the math core of
`src/src/App.tsx` (namespace `App` where the two source files differ) and of
the earlier draft `src/unnamed/part_000` (namespace `Draft`).  JavaScript
numbers are modelled as exact rationals (`ℚ`) and exact integers (`ℤ`): the
engine only ever feeds integer coefficients and small fractions through these
functions, and the specification's stated precision model is float-with-epsilon,
which the `ℚ` model refines.  `NaN` is modelled by `Option` (`none` = NaN).
Randomness is modelled by passing every random draw as an explicit argument.

JavaScript primitives used by the source and their models here:
  `%` on numbers (truncated remainder)  ->  `Int.tmod`
  `Math.trunc`                          ->  `jsTrunc`
  `Math.round`                          ->  `jsRound` (half-up `⌊x+1/2⌋`;
      `jsRound_eq` shows it is Mathlib `round`)
  `Math.sign`                           ->  `jsSign`
  `Math.abs`                            ->  `|·|` / `Int.natAbs`
  `Number(string)`                      ->  `jsNum`/`jsNumL` (over a char-list
      model of JS strings: decimal literals with sign/fraction/exponent and
      unsigned `0x`/`0b`/`0o` integer literals; only the non-finite
      `Infinity` results are conflated with `none`, which is
      accept/reject-equivalent everywhere the engine consumes the value,
      since every consumer guards with `isFinite`)
-/

/-- Source: `const igcd = (a, b) => (b === 0 ? Math.abs(a) : igcd(b, a % b))`
(`App.tsx` line 61 and `part_000` line 50; JS `%` is the truncated remainder,
`Int.tmod`). -/
def igcd (a b : ℤ) : ℤ :=
  if b = 0 then |a| else igcd b (Int.tmod a b)
termination_by b.natAbs
decreasing_by
  rename_i h
  have ht : (Int.tmod a b).natAbs = a.natAbs % b.natAbs := by
    cases a with
    | ofNat m =>
      cases b with
      | ofNat n => exact Int.natAbs_ofNat _
      | negSucc n => exact Int.natAbs_ofNat _
    | negSucc m =>
      cases b with
      | ofNat n =>
        show (-Int.ofNat ((m+1) % n)).natAbs = _
        rw [Int.natAbs_neg]; exact Int.natAbs_ofNat _
      | negSucc n =>
        show (-Int.ofNat ((m+1) % (n+1))).natAbs = _
        rw [Int.natAbs_neg]; exact Int.natAbs_ofNat _
  simp only [ht]
  exact Nat.mod_lt _ (Int.natAbs_pos.mpr h)

/-- Source: `const lcm2 = (a, b) => Math.abs(a * b) / igcd(a, b)` (`App.tsx` line 62;
`part_000` calls it `lcm`, line 51).  The division is exact whenever it is
used, so integer division is faithful. -/
def lcm2 (a b : ℤ) : ℤ := |a * b| / igcd a b

/-- Source: `const lcm3 = (a, b, c) => lcm2(lcm2(a, b), c)` (`App.tsx` line 63). -/
def lcm3 (a b c : ℤ) : ℤ := lcm2 (lcm2 a b) c

/-- JS `Math.sign`. -/
def jsSign (a : ℤ) : ℤ := if 0 < a then 1 else if a < 0 then -1 else 0

/-- JS `Math.trunc`: round toward zero. -/
def jsTrunc (q : ℚ) : ℤ := if 0 ≤ q then ⌊q⌋ else ⌈q⌉

/-- Source: `function simplifyFraction(num, den){ if(den<0){num=-num;den=-den;}
const g=igcd(num,den); return {num:num/g, den:den/g}; }`
(`App.tsx` line 64, `part_000` lines 52-56).  The divisions are exact
(`g` divides both arguments), so integer division is faithful. -/
def simplifyFraction (num den : ℤ) : ℤ × ℤ :=
  let num' := if den < 0 then -num else num
  let den' := if den < 0 then -den else den
  let g := igcd num' den'
  (num' / g, den' / g)

/-- Source: `function fracToText(num, den){ return den===1?`num`:`num/den`; }`
(`App.tsx` line 65, `part_000` lines 57-60). -/
def fracToText (num den : ℤ) : String :=
  if den = 1 then toString num else toString num ++ "/" ++ toString den

/-- JS `Math.round`: half-up rounding `⌊x + 1/2⌋` (ties toward positive
infinity, as in JS).  Implemented with the computable `Rat.floor`;
`jsRound_eq` below identifies it with Mathlib's `round`. -/
def jsRound (x : ℚ) : ℤ := Rat.floor (x + 1 / 2)

/-- One iteration of the `for(let q=1;q<=maxDen;q++)` loop body of
`toRationalApprox` (`App.tsx` line 66, `part_000` lines 62-70): compute
`p = Math.round(x*q)` and the error, and keep `(p, q, err)` only when the
error is strictly smaller than the best so far (`err < bestErr`).
The accumulated state is `(bestP, bestQ, bestErr)`; the initial
`bestErr = Infinity` is modelled by `none`. -/
def rasStep (x : ℚ) (st : ℤ × ℕ × Option ℚ) (q : ℕ) : ℤ × ℕ × Option ℚ :=
  let p := jsRound (x * q)
  let err := |x - (p : ℚ) / (q : ℚ)|
  match st.2.2 with
  | none => (p, q, some err)
  | some be => if err < be then (p, q, some err) else st

/-- The full loop of `toRationalApprox`, scanning `q = 1, 2, ..., n` in
ascending order from the initial state `bestP=0, bestQ=1, bestErr=Infinity`. -/
def rasScan (x : ℚ) : ℕ → ℤ × ℕ × Option ℚ
  | 0 => (0, 1, none)
  | n + 1 => rasStep x (rasScan x n) (n + 1)

/-- Source: `function toRationalApprox(x, maxDen=12){ ...loop...;
const s=simplifyFraction(bestP,bestQ); return `s.num/s.den`; }`
(`App.tsx` line 66, `part_000` lines 62-70).  Note the source interpolates
`num` and `den` directly -- it does not call `fracToText`. -/
def toRationalApprox (x : ℚ) (maxDen : ℕ) : String :=
  let st := rasScan x maxDen
  let s := simplifyFraction st.1 (st.2.1 : ℤ)
  toString s.1 ++ "/" ++ toString s.2

/-- Source: `interface EquationStd { a: number; b: number; c: number; d: number; }`
representing `a·x + b·y (+ c·z) = d`.  In `part_000` the field `c` is
optional and defaulted with `?? 0` at every use site; it is modelled as an
always-present field holding that default.  Generated systems have integer
entries, so the fields are `ℤ`. -/
structure EquationStd where
  a : ℤ
  b : ℤ
  c : ℤ
  d : ℤ
deriving DecidableEq, Repr

/-- The record returned by `solve2` (`App.tsx` line 73):
`{ x, y, xNum, xDen, yNum, yDen }` (the `part_000` variant also carries `D`,
which nothing consumes; it is omitted). -/
structure Solve2Result where
  x : ℚ
  y : ℚ
  xNum : ℤ
  xDen : ℤ
  yNum : ℤ
  yDen : ℤ
deriving DecidableEq, Repr

/-- Source: `function solve2(e1, e2)` -- Cramer's rule (`App.tsx` lines 69-74,
`part_000` lines 73-78): `null` when the determinant is zero, otherwise the
floating (here: rational) solution together with the simplified fraction
forms of `x` and `y`. -/
def solve2 (e1 e2 : EquationStd) : Option Solve2Result :=
  let D := e1.a * e2.b - e1.b * e2.a
  if D = 0 then none
  else
    let Dx := e1.d * e2.b - e1.b * e2.d
    let Dy := e1.a * e2.d - e1.d * e2.a
    let fx := simplifyFraction Dx D
    let fy := simplifyFraction Dy D
    some ⟨(Dx : ℚ) / (D : ℚ), (Dy : ℚ) / (D : ℚ), fx.1, fx.2, fy.1, fy.2⟩

/-- Source: `function formatSide(ax, by, cz, k, includeZ)` (`App.tsx` lines
87-102, `part_000` lines 92-108): builds the ordered token list -- constant
first (if nonzero), then `x`, `y`, and `z` (when `includeZ` and nonzero) --
and renders it as a signed sum.  The constant token is modelled with the
empty variable name.  `part_000`'s extra truthiness test `cz && cz!==0` is
equivalent to `cz !== 0` over integers. -/
def formatSide (ax byv cz k : ℤ) (includeZ : Bool) : String :=
  let toks : List (ℤ × String) :=
    (if k ≠ 0 then [((k : ℤ), "")] else []) ++
    (if ax ≠ 0 then [(ax, "x")] else []) ++
    (if byv ≠ 0 then [(byv, "y")] else []) ++
    (if includeZ = true ∧ cz ≠ 0 then [(cz, "z")] else [])
  let renderTok : Bool → ℤ × String → String := fun first tok =>
    let mag := tok.1.natAbs
    let core := if tok.2 = "" then toString mag
                else (if mag = 1 then "" else toString mag) ++ tok.2
    if first then (if tok.1 < 0 then "- " else "") ++ core
    else " " ++ (if tok.1 < 0 then "-" else "+") ++ " " ++ core
  match toks with
  | [] => "0"
  | t :: rest => rest.foldl (fun out tok => out ++ renderTok false tok) (renderTok true t)

/-- Coefficients of one side of a scrambled equation:
`ax·x + byv·y + cz·z + k`. -/
structure SideCoeffs where
  ax : ℤ
  byv : ℤ
  cz : ℤ
  k : ℤ
deriving DecidableEq, Repr

/-- Left-side coefficients of `scrambleLinear` (both sources): the random
draws `axL, byL, kL` are used directly, `czL` only when `includeZ`
(the source draws `czL = includeZ ? rnd(-3,3) : 0`). -/
def scrambleLeft (includeZ : Bool) (axL byL czL kL : ℤ) : SideCoeffs :=
  ⟨axL, byL, if includeZ then czL else 0, kL⟩

namespace App

/-- Right-side coefficients of `scrambleLinear` in `App.tsx` (lines 103-108):
`axR=axL-a; byR=byL-b; czR=includeZ?czL-c:0; kR=kL+d`. -/
def scrambleRight (e : EquationStd) (includeZ : Bool) (axL byL czL kL : ℤ) : SideCoeffs :=
  ⟨axL - e.a, byL - e.b, if includeZ then czL - e.c else 0, kL + e.d⟩

/-- Source: `function scrambleLinear(e, includeZ)` (`App.tsx` lines 103-108),
with the four `rnd` draws passed explicitly.  Returns the display string
`L = R`. -/
def scrambleLinear (e : EquationStd) (includeZ : Bool) (axL byL czL kL : ℤ) : String :=
  let l := scrambleLeft includeZ axL byL czL kL
  let r := scrambleRight e includeZ axL byL czL kL
  formatSide l.ax l.byv l.cz l.k includeZ ++ " = " ++ formatSide r.ax r.byv r.cz r.k includeZ

end App

namespace Draft

/-- Right-side coefficients of `scrambleLinear` in `part_000` (lines
111-120): identical to `App.scrambleRight` except `kR = kL - d`. -/
def scrambleRight (e : EquationStd) (includeZ : Bool) (axL byL czL kL : ℤ) : SideCoeffs :=
  ⟨axL - e.a, byL - e.b, if includeZ then czL - e.c else 0, kL - e.d⟩

/-- Source: `function scrambleLinear(e, includeZ)` (`part_000` lines 111-120),
with the four `rnd` draws passed explicitly. -/
def scrambleLinear (e : EquationStd) (includeZ : Bool) (axL byL czL kL : ℤ) : String :=
  let l := scrambleLeft includeZ axL byL czL kL
  let r := scrambleRight e includeZ axL byL czL kL
  formatSide l.ax l.byv l.cz l.k includeZ ++ " = " ++ formatSide r.ax r.byv r.cz r.k includeZ

end Draft

/-- Difficulty levels (both sources). -/
inductive Difficulty
  | easy
  | medium
  | hard
deriving DecidableEq, Repr

/-- Magnitude pool of `gen2x2` in `App.tsx` (line 123):
`easy [1,2,3]`, `medium [1,2,3,4,5]`, `hard [1,2,3,4,5,6,7]`. -/
def base2 : Difficulty → List ℤ
  | .easy => [1, 2, 3]
  | .medium => [1, 2, 3, 4, 5]
  | .hard => [1, 2, 3, 4, 5, 6, 7]

/-- Magnitude pool of `gen3x3` in `App.tsx` (line 134):
`easy [1,2,3]`, `medium [1,2,3,4]`, `hard [1,2,3,4,5]`. -/
def base3 : Difficulty → List ℤ
  | .easy => [1, 2, 3]
  | .medium => [1, 2, 3, 4]
  | .hard => [1, 2, 3, 4, 5]

/-- Coefficient step of `gen2x2` (`App.tsx` lines 124-126): each coefficient
is `L * choice([-1,1]) * choice(base)`; if the drawn determinant `a*d - b*c`
is zero, perturb `d += L`.  The sign and magnitude draws are explicit
arguments. -/
def gen2x2Coeffs (L sa ma sb mb sc mc sd md : ℤ) : ℤ × ℤ × ℤ × ℤ :=
  let a := L * sa * ma
  let b := L * sb * mb
  let c := L * sc * mc
  let d := L * sd * md
  if a * d - b * c = 0 then (a, b, c, d + L) else (a, b, c, d)

/-- Source: `function gen2x2(difficulty, ansType)` (`App.tsx` lines 121-131),
equation-building part, with the target solution `(px/qx, py/qy)` and the
eight sign/magnitude draws passed explicitly.  `L = lcm2(qx, qy)` and the
right-hand sides are `Math.trunc` of the coefficient·target combinations. -/
def gen2x2Eqs (px qx py qy sa ma sb mb sc mc sd md : ℤ) : EquationStd × EquationStd :=
  let L := lcm2 qx qy
  let co := gen2x2Coeffs L sa ma sb mb sc mc sd md
  let a := co.1
  let b := co.2.1
  let c := co.2.2.1
  let d := co.2.2.2
  let x : ℚ := (px : ℚ) / (qx : ℚ)
  let y : ℚ := (py : ℚ) / (qy : ℚ)
  (⟨a, b, 0, jsTrunc ((a : ℚ) * x + (b : ℚ) * y)⟩,
   ⟨c, d, 0, jsTrunc ((c : ℚ) * x + (d : ℚ) * y)⟩)

/-- A drawn 3x3 coefficient matrix. -/
structure Mat3 where
  a00 : ℤ
  a01 : ℤ
  a02 : ℤ
  a10 : ℤ
  a11 : ℤ
  a12 : ℤ
  a20 : ℤ
  a21 : ℤ
  a22 : ℤ
deriving DecidableEq, Repr

/-- The cofactor-expansion determinant used by `gen3x3` (`App.tsx` line 137)
and `randMatrix3` (`part_000` line 142). -/
def det3 (M : Mat3) : ℤ :=
  M.a00 * (M.a11 * M.a22 - M.a12 * M.a21)
    - M.a01 * (M.a10 * M.a22 - M.a12 * M.a20)
    + M.a02 * (M.a10 * M.a21 - M.a11 * M.a20)

/-- Singularity adjustment of `gen3x3` (`App.tsx` line 138):
`if(det(A)===0) A[2][2]+=L`, with the drawn matrix `M` (every entry of which
the source draws as `L*choice([-1,1])*choice(base)`) passed explicitly. -/
def gen3x3Mat (M : Mat3) (L : ℤ) : Mat3 :=
  if det3 M = 0 then { M with a22 := M.a22 + L } else M

/-- The JS whitespace set used by `String.prototype.trim` and by
`Number(string)`: ECMA WhiteSpace (TAB, VT, FF, SP, NBSP, ZWNBSP and the
Unicode Space_Separator characters) plus the LineTerminator characters
(LF, CR, LS, PS). -/
def jsIsWhitespace (c : Char) : Bool :=
  [' ', '\t', '\n', '\r', '\x0b', '\x0c', '\u00A0', '\u1680',
   '\u2000', '\u2001', '\u2002', '\u2003', '\u2004', '\u2005', '\u2006',
   '\u2007', '\u2008', '\u2009', '\u200A', '\u2028', '\u2029', '\u202F',
   '\u205F', '\u3000', '\uFEFF'].contains c

/-- JS `String.prototype.trim` over the char-list model of strings: drop
leading and trailing JS whitespace.  (The JS engine's `String.trim`/`split`
are modelled on `List Char` because that is the natural shallow embedding of
JS strings; `String.toList` converts once at the boundary.) -/
def listTrim (l : List Char) : List Char :=
  ((l.dropWhile jsIsWhitespace).reverse.dropWhile jsIsWhitespace).reverse

/-- JS `String.prototype.includes(sep)` for a one-character separator. -/
def listContains (sep : Char) (l : List Char) : Bool :=
  l.any (fun c => c = sep)

/-- JS `String.prototype.split(sep)` for a one-character separator: split on
every occurrence, keeping empty parts (`"1//2"` gives `["1", "", "2"]`). -/
def listSplit (sep : Char) : List Char → List (List Char)
  | [] => [[]]
  | c :: rest =>
    match listSplit sep rest with
    | [] => [[c]]
    | h :: t => if c = sep then [] :: h :: t else (c :: h) :: t

/-- Digit-string value, most significant digit first. -/
def digitsToNat (l : List Char) : ℕ :=
  l.foldl (fun acc c => 10 * acc + (c.toNat - Char.toNat '0')) 0

/-- Hexadecimal digit test, as in a JS `HexIntegerLiteral`. -/
def isHexDigit (c : Char) : Bool :=
  ('0' ≤ c ∧ c ≤ '9') ∨ ('a' ≤ c ∧ c ≤ 'f') ∨ ('A' ≤ c ∧ c ≤ 'F')

/-- Binary digit test, as in a JS `BinaryIntegerLiteral`. -/
def isBinDigit (c : Char) : Bool := c = '0' ∨ c = '1'

/-- Octal digit test, as in a JS `OctalIntegerLiteral`. -/
def isOctDigit (c : Char) : Bool := '0' ≤ c ∧ c ≤ '7'

/-- Value of a digit in bases up to 16. -/
def hexDigitVal (c : Char) : ℕ :=
  if 'a' ≤ c ∧ c ≤ 'f' then c.toNat - Char.toNat 'a' + 10
  else if 'A' ≤ c ∧ c ≤ 'F' then c.toNat - Char.toNat 'A' + 10
  else c.toNat - Char.toNat '0'

/-- Digit-string value in radix `b`, most significant digit first. -/
def radixVal (b : ℕ) (l : List Char) : ℕ :=
  l.foldl (fun acc c => b * acc + hexDigitVal c) 0

/-- Numeric value of a parsed JS decimal literal:
`±(ip + fp/10^fl) · 10^(±en)`. -/
def mkVal (neg : Bool) (ip fp fl : ℕ) (eNeg : Bool) (en : ℕ) : ℚ :=
  let m : ℚ := (ip : ℚ) + (fp : ℚ) / (10 : ℚ) ^ fl
  let v : ℚ := if eNeg then m / (10 : ℚ) ^ en else m * (10 : ℚ) ^ en
  if neg then -v else v

/-- Exponent suffix of a JS decimal number literal: empty, or `e`/`E`
followed by an optional sign and a nonempty digit string.  Returns the
exponent's sign flag and digit value; anything else is a parse failure. -/
def parseExpPart (cs : List Char) : Option (Bool × ℕ) :=
  match cs with
  | [] => some (false, 0)
  | c :: rest =>
    if c = 'e' ∨ c = 'E' then
      let core : List Char → Bool → Option (Bool × ℕ) := fun ds sgn =>
        if ds ≠ [] ∧ ds.all Char.isDigit then some (sgn, digitsToNat ds) else none
      match rest with
      | '+' :: ds => core ds false
      | '-' :: ds => core ds true
      | ds => core ds false
    else none

/-- Mantissa of a JS decimal number literal: `digits`, `digits.digits`,
`digits.`, or `.digits` (at least one digit overall).  Returns
`(intPart, fracPart, fracDigitCount)` and the unconsumed tail. -/
def parseMantissa (cs : List Char) : Option ((ℕ × ℕ × ℕ) × List Char) :=
  let ip := cs.takeWhile Char.isDigit
  let rest := cs.dropWhile Char.isDigit
  match rest with
  | '.' :: r2 =>
    let fp := r2.takeWhile Char.isDigit
    let r3 := r2.dropWhile Char.isDigit
    if ip = [] ∧ fp = [] then none
    else some ((digitsToNat ip, digitsToNat fp, fp.length), r3)
  | _ => if ip = [] then none else some ((digitsToNat ip, 0, 0), rest)

/-- The `StrDecimalLiteral` branch of JS `Number(string)`: an optional sign,
a mantissa and an optional exponent, consuming the whole (already trimmed,
nonempty) string.  `NaN` is `none`. -/
def jsNumDec (cs : List Char) : Option ℚ :=
  let sp : Bool × List Char :=
    match cs with
    | '+' :: r => (false, r)
    | '-' :: r => (true, r)
    | _ => (false, cs)
  match parseMantissa sp.2 with
  | none => none
  | some mr =>
    match parseExpPart mr.2 with
    | none => none
    | some ep => some (mkVal sp.1 mr.1.1 mr.1.2.1 mr.1.2.2 ep.1 ep.2)

/-- Model of the JS builtin `Number(string)` over the char-list string
model: JS-whitespace-trimmed; empty is `0`; an unsigned `0x`/`0b`/`0o`
non-decimal integer literal (a sign before these is NaN, as in JS);
otherwise a signed decimal literal with optional fraction and exponent,
consuming the whole string.  `NaN` is `none`.  The only `Number` results not
represented are `Infinity`/`+Infinity`/`-Infinity`, conflated with `none`:
they are not finite, and every consumer in the source guards the value with
`isFinite`, so acceptance is unaffected (see the header note). -/
def jsNumL (cs0 : List Char) : Option ℚ :=
  let cs := listTrim cs0
  if cs = [] then some 0
  else
    match cs with
    | '0' :: p :: ds =>
      if p = 'x' ∨ p = 'X' then
        if ds ≠ [] ∧ ds.all isHexDigit then some ((radixVal 16 ds : ℕ) : ℚ) else none
      else if p = 'b' ∨ p = 'B' then
        if ds ≠ [] ∧ ds.all isBinDigit then some ((radixVal 2 ds : ℕ) : ℚ) else none
      else if p = 'o' ∨ p = 'O' then
        if ds ≠ [] ∧ ds.all isOctDigit then some ((radixVal 8 ds : ℕ) : ℚ) else none
      else jsNumDec cs
    | _ => jsNumDec cs

/-- JS `Number(string)`. -/
def jsNum (s : String) : Option ℚ := jsNumL s.toList

namespace App

/-- Source: `parseFraction` (`App.tsx` lines 335-339): trim; empty is NaN; a
string containing `/` is split on `/` and destructured as `[pn, qn]` (parts
beyond the second are dropped); both parts must be finite numbers and the
denominator nonzero, else NaN; otherwise `Number` of the whole string. -/
def parseFraction (txt : String) : Option ℚ :=
  let s := listTrim txt.toList
  if s = [] then none
  else if listContains '/' s then
    let parts := listSplit '/' s
    match jsNumL (parts.getD 0 []), jsNumL (parts.getD 1 []) with
    | some p, some q => if q = 0 then none else some (p / q)
    | _, _ => none
  else jsNumL s

end App

namespace Draft

/-- Source: `parseFraction` (`part_000` lines 241-251): as
`App.parseFraction` but a string containing `/` must split into exactly two
parts (`parts.length!==2` is NaN). -/
def parseFraction (txt : String) : Option ℚ :=
  let s := listTrim txt.toList
  if s = [] then none
  else if listContains '/' s then
    let parts := listSplit '/' s
    if parts.length ≠ 2 then none
    else
      match jsNumL (parts.getD 0 []), jsNumL (parts.getD 1 []) with
      | some p, some q => if q = 0 then none else some (p / q)
      | _, _ => none
  else jsNumL s

end Draft

/-- The tolerance of `approx` (`App.tsx` line 60): `eps = 1e-6`. -/
def eps : ℚ := 1 / 1000000

/-- Source: `const approx = (a, b, eps = 1e-6) => Math.abs(a - b) <= eps`
(`App.tsx` line 60, `part_000` line 39), always called with the default
epsilon. -/
def approx (a b : ℚ) : Bool := |a - b| ≤ eps

/-- JS comparison where the first operand may be `NaN` (modelled `none`):
every comparison with `NaN` is false. -/
def approxOpt (o : Option ℚ) (b : ℚ) : Bool :=
  match o with
  | none => false
  | some a => approx a b

/-- JS `v || 0` applied to a number-or-NaN: `NaN` (falsy) becomes `0`,
`0` stays `0`, anything else is returned unchanged. -/
def orZero (o : Option ℚ) : ℚ := o.getD 0

/-- Outcome of an answer check: the `ok` flag and the residual feedback
pushed when the answer is wrong. -/
structure CheckOutcome where
  correct : Bool
  residuals : List ℚ
deriving DecidableEq, Repr

/-- The 2x2 answer-checking core of `submit` (`App.tsx` lines 358-377): solve
the hidden system (`none` = the "Singular system" early return), parse both
answer fields, compare each against the exact solution with `approx`, and on
a wrong answer compute the residuals
`r_i = eqs[i].a*(x||0) + eqs[i].b*(y||0) - eqs[i].d`. -/
def submitCheck2 (e1 e2 : EquationStd) (tx ty : String) : Option CheckOutcome :=
  match solve2 e1 e2 with
  | none => none
  | some s =>
    let x := App.parseFraction tx
    let y := App.parseFraction ty
    let ok := approxOpt x s.x && approxOpt y s.y
    let res : List ℚ :=
      if ok then []
      else [(e1.a : ℚ) * orZero x + (e1.b : ℚ) * orZero y - (e1.d : ℚ),
            (e2.a : ℚ) * orZero x + (e2.b : ℚ) * orZero y - (e2.d : ℚ)]
    some ⟨ok, res⟩

/-- One augmented row `[a, b, c, d]` of the Gaussian elimination in `solve3`. -/
structure Row3 where
  a : ℚ
  b : ℚ
  c : ℚ
  d : ℚ
deriving DecidableEq, Repr

/-- The augmented row of an equation (`A = eq.map(e=>[e.a,e.b,e.c,e.d])`). -/
def rowOf (e : EquationStd) : Row3 := ⟨(e.a : ℚ), (e.b : ℚ), (e.c : ℚ), (e.d : ℚ)⟩

/-- Row operation of the `c = 0` elimination pass:
`f = A[r][0]/A[0][0]; A[r][k] -= f*A[0][k]` for `k = 0..3`. -/
def elimCol0 (p r : Row3) : Row3 :=
  let f := r.a / p.a
  ⟨r.a - f * p.a, r.b - f * p.b, r.c - f * p.c, r.d - f * p.d⟩

/-- Row operation of the `c = 1` elimination pass:
`f = A[r][1]/A[1][1]; A[r][k] -= f*A[1][k]` for `k = 1..3` (column 0 is left
untouched because the loop starts at `k = c`). -/
def elimCol1 (p r : Row3) : Row3 :=
  let f := r.b / p.b
  ⟨r.a, r.b - f * p.b, r.c - f * p.c, r.d - f * p.d⟩

/-- The pivot tolerance of `solve3`: `1e-12`. -/
def tol : ℚ := 1 / 1000000000000

/-- Source: `function solve3(eq)` (`App.tsx` lines 75-84, `part_000` lines
81-89): Gaussian elimination with partial pivoting on the augmented matrix;
`null` when the selected pivot is below `1e-12` in absolute value; otherwise
the back-substituted `{x, y, z}`.  The pivot row is the first row (scanning
down with a strict `>` comparison) of largest absolute value in the current
column. -/
def solve3 (e1 e2 e3 : EquationStd) : Option (ℚ × ℚ × ℚ) :=
  let r0 := rowOf e1
  let r1 := rowOf e2
  let r2 := rowOf e3
  let p1 : ℕ := if |r1.a| > |r0.a| then 1 else 0
  let pval1 := if p1 = 1 then r1.a else r0.a
  let p0 : ℕ := if |r2.a| > |pval1| then 2 else p1
  let pv0 := if p0 = 2 then r2.a else pval1
  if |pv0| < tol then none
  else
    let s0 := if p0 = 0 then r0 else if p0 = 1 then r1 else r2
    let s1 := if p0 = 1 then r0 else r1
    let s2 := if p0 = 2 then r0 else r2
    let t1 := elimCol0 s0 s1
    let t2 := elimCol0 s0 s2
    let q1 : ℕ := if |t2.b| > |t1.b| then 2 else 1
    let pv1 := if q1 = 2 then t2.b else t1.b
    if |pv1| < tol then none
    else
      let u1 := if q1 = 2 then t2 else t1
      let u2 := if q1 = 2 then t1 else t2
      let v2 := elimCol1 u1 u2
      if |v2.c| < tol then none
      else
        let z := v2.d / v2.c
        let y := (u1.d - u1.c * z) / u1.b
        let x := (s0.d - s0.c * z - s0.b * y) / s0.a
        some (x, y, z)

/-- The 3x3 answer-checking core of `submit` (`App.tsx` lines 358-366 and
378-387): as `submitCheck2` but with three fields and residuals
`r_i = a*(x||0) + b*(y||0) + c*(z||0) - d`. -/
def submitCheck3 (e1 e2 e3 : EquationStd) (tx ty tz : String) : Option CheckOutcome :=
  match solve3 e1 e2 e3 with
  | none => none
  | some s =>
    let x := App.parseFraction tx
    let y := App.parseFraction ty
    let z := App.parseFraction tz
    let ok := approxOpt x s.1 && approxOpt y s.2.1 && approxOpt z s.2.2
    let res : List ℚ :=
      if ok then []
      else [(e1.a : ℚ) * orZero x + (e1.b : ℚ) * orZero y + (e1.c : ℚ) * orZero z - (e1.d : ℚ),
            (e2.a : ℚ) * orZero x + (e2.b : ℚ) * orZero y + (e2.c : ℚ) * orZero z - (e2.d : ℚ),
            (e3.a : ℚ) * orZero x + (e3.b : ℚ) * orZero y + (e3.c : ℚ) * orZero z - (e3.d : ℚ)]
    some ⟨ok, res⟩

/-- Source: `function eqToString(e)` (`App.tsx` lines 153-156). -/
def eqToString (e : EquationStd) : String :=
  formatSide e.a e.b e.c 0 (e.c != 0) ++ " = " ++ toString e.d

/-- The elimination LCM for `x` in the worked-steps planner (`App.tsx` line
159, `part_000` line 181): `Infinity` (modelled `⊤`) when either `a`
coefficient is zero, else `lcm2(|e1.a|, |e2.a|)`. -/
def lcmXT (e1 e2 : EquationStd) : WithTop ℤ :=
  if e1.a = 0 ∨ e2.a = 0 then ⊤ else ((lcm2 |e1.a| |e2.a| : ℤ) : WithTop ℤ)

/-- The elimination LCM for `y` (`App.tsx` line 160, `part_000` line 182). -/
def lcmYT (e1 e2 : EquationStd) : WithTop ℤ :=
  if e1.b = 0 ∨ e2.b = 0 then ⊤ else ((lcm2 |e1.b| |e2.b| : ℤ) : WithTop ℤ)

/-- Which variable the planner eliminates. -/
inductive ElimVar
  | x
  | y
deriving DecidableEq, Repr

/-- The planner's choice `eliminate = lcmX <= lcmY ? 'x' : 'y'` (`App.tsx`
line 161; `part_000` line 183 calls it `target`). -/
def worked2x2Elim (e1 e2 : EquationStd) : ElimVar :=
  if lcmXT e1 e2 ≤ lcmYT e1 e2 then .x else .y

/-- The planner's combine operation for the chosen variable:
`op = Math.sign(c1) === Math.sign(c2) ? '-' : '+'` applied to the chosen
variable's coefficients (`App.tsx` lines 165 and 176; `part_000` renders the
same test as the words `subtract`/`add`, lines 186-193). -/
def worked2x2Op (e1 e2 : EquationStd) : String :=
  match worked2x2Elim e1 e2 with
  | .x => if jsSign e1.a = jsSign e2.a then "-" else "+"
  | .y => if jsSign e1.b = jsSign e2.b then "-" else "+"

/-- Source: `function worked2x2(prob, sol)` (`App.tsx` lines 157-191): the
narrated elimination steps.  The in-branch multiplier arithmetic uses the
finite `lcm2` value; this matches the source whenever the chosen variable's
coefficients are nonzero (when one is zero the source would render
`Infinity`-valued multipliers -- no claim concerns that degenerate case). -/
def worked2x2 (e1 e2 : EquationStd) (sol : Option Solve2Result) : List String :=
  let start := "Start: Eq(1) " ++ eqToString e1 ++ ",  Eq(2) " ++ eqToString e2
  let branch :=
    match worked2x2Elim e1 e2 with
    | .x =>
      let l := lcm2 |e1.a| |e2.a|
      let k1 := l / |e1.a|
      let k2 := l / |e2.a|
      let op := worked2x2Op e1 e2
      let A1 : EquationStd := ⟨e1.a * k1, e1.b * k1, 0, e1.d * k1⟩
      let A2 : EquationStd := ⟨e2.a * k2, e2.b * k2, 0, e2.d * k2⟩
      let By := A1.b - (if op = "-" then A2.b else -A2.b)
      let Bd := A1.d - (if op = "-" then A2.d else -A2.d)
      let yS := simplifyFraction Bd By
      ["Make |x| match: Eq(1)×" ++ toString k1 ++ " → (" ++ toString A1.a ++ ")x + ("
         ++ toString A1.b ++ ")y = " ++ toString A1.d,
       "Eq(2)×" ++ toString k2 ++ " → (" ++ toString A2.a ++ ")x + ("
         ++ toString A2.b ++ ")y = " ++ toString A2.d,
       "Eliminate x: Eq(1) " ++ op ++ " Eq(2) → (" ++ toString By ++ ")y = " ++ toString Bd,
       "y = " ++ fracToText yS.1 yS.2,
       "Back-sub into Eq(1) for x (exact below)."]
    | .y =>
      let l := lcm2 |e1.b| |e2.b|
      let k1 := l / |e1.b|
      let k2 := l / |e2.b|
      let op := worked2x2Op e1 e2
      let A1 : EquationStd := ⟨e1.a * k1, e1.b * k1, 0, e1.d * k1⟩
      let A2 : EquationStd := ⟨e2.a * k2, e2.b * k2, 0, e2.d * k2⟩
      let Bx := A1.a - (if op = "-" then A2.a else -A2.a)
      let Bd := A1.d - (if op = "-" then A2.d else -A2.d)
      let xS := simplifyFraction Bd Bx
      ["Make |y| match: Eq(1)×" ++ toString k1 ++ " → (" ++ toString A1.a ++ ")x + ("
         ++ toString A1.b ++ ")y = " ++ toString A1.d,
       "Eq(2)×" ++ toString k2 ++ " → (" ++ toString A2.a ++ ")x + ("
         ++ toString A2.b ++ ")y = " ++ toString A2.d,
       "Eliminate y: Eq(1) " ++ op ++ " Eq(2) → (" ++ toString Bx ++ ")x = " ++ toString Bd,
       "x = " ++ fracToText xS.1 xS.2,
       "Back-sub into Eq(1) for y (exact below)."]
  let tail :=
    match sol with
    | some s => ["Exact: x = " ++ fracToText s.xNum s.xDen ++ ", y = " ++ fracToText s.yNum s.yDen]
    | none => []
  start :: branch ++ tail

/-! Helper lemmas. -/

theorem natAbs_tmod (a b : ℤ) : (Int.tmod a b).natAbs = a.natAbs % b.natAbs := by
  cases a with
  | ofNat m =>
    cases b with
    | ofNat n => exact Int.natAbs_ofNat _
    | negSucc n => exact Int.natAbs_ofNat _
  | negSucc m =>
    cases b with
    | ofNat n =>
      show (-Int.ofNat ((m + 1) % n)).natAbs = _
      rw [Int.natAbs_neg]; exact Int.natAbs_ofNat _
    | negSucc n =>
      show (-Int.ofNat ((m + 1) % (n + 1))).natAbs = _
      rw [Int.natAbs_neg]; exact Int.natAbs_ofNat _

/-- The source's recursive gcd agrees with Mathlib's `Int.gcd`. -/
theorem igcd_eq_gcd (a b : ℤ) : igcd a b = (Int.gcd a b : ℤ) := by
  induction a, b using igcd.induct with
  | case1 a =>
    rw [igcd, if_pos rfl, Int.abs_eq_natAbs]
    norm_num [Int.gcd]
  | case2 a b h ih =>
    rw [igcd, if_neg h, ih]
    show (Int.gcd b (Int.tmod a b) : ℤ) = Int.gcd a b
    unfold Int.gcd
    rw [natAbs_tmod]
    rw [Nat.gcd_comm, ← Nat.gcd_rec, Nat.gcd_comm]

/-- The source's `lcm2` agrees with Mathlib's `Int.lcm`. -/
theorem lcm2_eq_lcm (a b : ℤ) : lcm2 a b = (Int.lcm a b : ℤ) := by
  unfold lcm2
  rw [igcd_eq_gcd]
  have h1 : |a| * |b| = ((a.natAbs * b.natAbs : ℕ) : ℤ) := by
    rw [Int.abs_eq_natAbs, Int.abs_eq_natAbs]; push_cast; ring
  rw [abs_mul, h1, Int.lcm, Nat.lcm]
  exact (Int.ofNat_ediv _ _).symm

theorem lcm2_pos {a b : ℤ} (ha : a ≠ 0) (hb : b ≠ 0) : 0 < lcm2 a b := by
  rw [lcm2_eq_lcm]
  exact_mod_cast Nat.lcm_pos (Int.natAbs_pos.mpr ha) (Int.natAbs_pos.mpr hb)

theorem simplifyFraction_eq (num den : ℤ) :
    simplifyFraction num den =
      ((if den < 0 then -num else num) /
         (Int.gcd (if den < 0 then -num else num) (if den < 0 then -den else den) : ℤ),
       (if den < 0 then -den else den) /
         (Int.gcd (if den < 0 then -num else num) (if den < 0 then -den else den) : ℤ)) := by
  simp only [simplifyFraction, igcd_eq_gcd]

/-- Core facts about `simplifyFraction` on a nonzero denominator: positive
output denominator, coprime output, and value preservation. -/
theorem simplifyFraction_props (num den : ℤ) (hden : den ≠ 0) :
    0 < (simplifyFraction num den).2 ∧
    Int.gcd (simplifyFraction num den).1 (simplifyFraction num den).2 = 1 ∧
    ((simplifyFraction num den).1 : ℚ) / ((simplifyFraction num den).2 : ℚ)
      = (num : ℚ) / (den : ℚ) := by
  rw [simplifyFraction_eq]
  dsimp only
  set n := if den < 0 then -num else num with hn
  set d := if den < 0 then -den else den with hd
  have hdpos : 0 < d := by
    rw [hd]
    rcases lt_trichotomy den 0 with h | h | h
    · simp [h, Int.neg_pos.mpr h]
    · exact absurd h hden
    · simp [not_lt.mpr (le_of_lt h), h]
  have hg : 0 < Int.gcd n d := Int.gcd_pos_of_ne_zero_right n (ne_of_gt hdpos)
  have hgzZ : (Int.gcd n d : ℤ) ≠ 0 := by exact_mod_cast hg.ne'
  have hnd : ((Int.gcd n d : ℤ)) ∣ n := Int.gcd_dvd_left
  have hdd : ((Int.gcd n d : ℤ)) ∣ d := Int.gcd_dvd_right
  refine ⟨?_, Int.gcd_div_gcd_div_gcd hg, ?_⟩
  · have hmul : d / (Int.gcd n d : ℤ) * (Int.gcd n d : ℤ) = d := Int.ediv_mul_cancel hdd
    by_contra hle
    push_neg at hle
    have hle2 : d ≤ 0 := by
      calc d = d / (Int.gcd n d : ℤ) * (Int.gcd n d : ℤ) := hmul.symm
      _ ≤ 0 := mul_nonpos_iff.mpr (Or.inr ⟨hle, by exact_mod_cast Nat.zero_le _⟩)
    exact absurd hdpos (not_lt.mpr hle2)
  · have c1 : ((n / (Int.gcd n d : ℤ) : ℤ) : ℚ) = (n : ℚ) / ((Int.gcd n d : ℤ) : ℚ) :=
      Int.cast_div_charZero hnd
    have c2 : ((d / (Int.gcd n d : ℤ) : ℤ) : ℚ) = (d : ℚ) / ((Int.gcd n d : ℤ) : ℚ) :=
      Int.cast_div_charZero hdd
    have hgq : ((Int.gcd n d : ℤ) : ℚ) ≠ 0 := by exact_mod_cast hgzZ
    have hdq : (d : ℚ) ≠ 0 := by exact_mod_cast hdpos.ne'
    have hval : (n : ℚ) / (d : ℚ) = (num : ℚ) / (den : ℚ) := by
      rw [hn, hd]
      by_cases h : den < 0
      · simp only [if_pos h]; push_cast; rw [neg_div_neg_eq]
      · simp only [if_neg h]
    have hcancel : (n : ℚ) / ((Int.gcd n d : ℤ) : ℚ) / ((d : ℚ) / ((Int.gcd n d : ℤ) : ℚ))
        = (n : ℚ) / (d : ℚ) := by
      field_simp
    rw [c1, c2, hcancel, hval]

/-- Idempotence core: an already-simplified pair is returned unchanged. -/
theorem simplifyFraction_fixed (n d : ℤ) (hdpos : 0 < d) (hcop : Int.gcd n d = 1) :
    simplifyFraction n d = (n, d) := by
  rw [simplifyFraction_eq]
  simp only [if_neg (not_lt.mpr hdpos.le)]
  rw [hcop]
  simp

theorem jsTrunc_intCast (k : ℤ) : jsTrunc (k : ℚ) = k := by
  unfold jsTrunc
  split_ifs with h
  · exact Int.floor_intCast k
  · exact Int.ceil_intCast k

/-- After `gen2x2Coeffs`, the determinant `a*d - b*c` of the emitted
coefficients is nonzero, for any positive `L`, unit sign draw and positive
magnitude draw of the first coefficient. -/
theorem gen2x2Coeffs_det_ne (L sa ma sb mb sc mc sd md : ℤ)
    (hL : 0 < L) (hsa : sa = 1 ∨ sa = -1) (hma : 1 ≤ ma) :
    (gen2x2Coeffs L sa ma sb mb sc mc sd md).1 *
        (gen2x2Coeffs L sa ma sb mb sc mc sd md).2.2.2 -
      (gen2x2Coeffs L sa ma sb mb sc mc sd md).2.1 *
        (gen2x2Coeffs L sa ma sb mb sc mc sd md).2.2.1 ≠ 0 := by
  have hsa' : sa ≠ 0 := by rcases hsa with h | h <;> simp [h]
  have hma' : ma ≠ 0 := by omega
  have ha : L * sa * ma ≠ 0 := mul_ne_zero (mul_ne_zero hL.ne' hsa') hma'
  simp only [gen2x2Coeffs]
  split_ifs with hdet
  · dsimp only
    have hrw : L * sa * ma * (L * sd * md + L) - L * sb * mb * (L * sc * mc)
        = (L * sa * ma * (L * sd * md) - L * sb * mb * (L * sc * mc)) + L * sa * ma * L := by
      ring
    rw [hrw, hdet, zero_add]
    exact mul_ne_zero ha hL.ne'
  · exact hdet

/-- C9: for every integer `num` and nonzero integer `den`,
`simplifyFraction(num, den)` returns a pair with positive denominator and
`gcd(|n|, |d|) = 1`, and re-simplifying the returned pair gives it back
unchanged (idempotence). -/
theorem simplifyFraction_spec (num den : ℤ) (hden : den ≠ 0) :
    0 < (simplifyFraction num den).2 ∧
    Nat.gcd (simplifyFraction num den).1.natAbs (simplifyFraction num den).2.natAbs = 1 ∧
    simplifyFraction (simplifyFraction num den).1 (simplifyFraction num den).2
      = simplifyFraction num den := by
  obtain ⟨h1, h2, _⟩ := simplifyFraction_props num den hden
  refine ⟨h1, h2, ?_⟩
  rw [simplifyFraction_fixed _ _ h1 h2]

/-- Witness for C9 at `num = -4`, `den = -6`. -/
theorem simplifyFraction_spec_witness :
    (-6 : ℤ) ≠ 0 ∧
    (0 < (simplifyFraction (-4) (-6)).2 ∧
     Nat.gcd (simplifyFraction (-4) (-6)).1.natAbs (simplifyFraction (-4) (-6)).2.natAbs = 1 ∧
     simplifyFraction (simplifyFraction (-4) (-6)).1 (simplifyFraction (-4) (-6)).2
       = simplifyFraction (-4) (-6)) :=
  ⟨by decide, simplifyFraction_spec (-4) (-6) (by decide)⟩

/-- C6: `solve2(e1, e2)` returns the no-solution signal `null` (modelled
`none`, not an exception) exactly when `D = e1.a*e2.b - e1.b*e2.a = 0`;
otherwise it returns `x = Dx/D`, `y = Dy/D` with
`Dx = e1.d*e2.b - e1.b*e2.d`, `Dy = e1.a*e2.d - e1.d*e2.a`, together with
simplified numerator/denominator pairs for `x` and `y`; in particular
`e1={a:4,b:0,d:6}, e2={a:0,b:4,d:-5}` yields `x=3/2 (=1.5)`,
`y=-5/4 (=-1.25)` with fraction pairs `(3,2)` and `(-5,4)`, and
`e1={a:2,b:3,d:7}, e2={a:1,b:-1,d:1}` yields `x=2, y=1`. -/
theorem solve2_spec :
    (∀ e1 e2 : EquationStd,
      (solve2 e1 e2 = none ↔ e1.a * e2.b - e1.b * e2.a = 0) ∧
      (∀ r, solve2 e1 e2 = some r →
        r.x = ((e1.d * e2.b - e1.b * e2.d : ℤ) : ℚ) / ((e1.a * e2.b - e1.b * e2.a : ℤ) : ℚ) ∧
        r.y = ((e1.a * e2.d - e1.d * e2.a : ℤ) : ℚ) / ((e1.a * e2.b - e1.b * e2.a : ℤ) : ℚ) ∧
        (r.xNum, r.xDen) = simplifyFraction (e1.d * e2.b - e1.b * e2.d) (e1.a * e2.b - e1.b * e2.a) ∧
        (r.yNum, r.yDen) = simplifyFraction (e1.a * e2.d - e1.d * e2.a) (e1.a * e2.b - e1.b * e2.a) ∧
        0 < r.xDen ∧ Nat.gcd r.xNum.natAbs r.xDen.natAbs = 1 ∧ (r.xNum : ℚ) / (r.xDen : ℚ) = r.x ∧
        0 < r.yDen ∧ Nat.gcd r.yNum.natAbs r.yDen.natAbs = 1 ∧ (r.yNum : ℚ) / (r.yDen : ℚ) = r.y)) ∧
    solve2 ⟨4, 0, 0, 6⟩ ⟨0, 4, 0, -5⟩ = some ⟨3/2, -5/4, 3, 2, -5, 4⟩ ∧
    (∃ r, solve2 ⟨2, 3, 0, 7⟩ ⟨1, -1, 0, 1⟩ = some r ∧ r.x = 2 ∧ r.y = 1) := by
  refine ⟨?_, ?_, ?_⟩
  · intro e1 e2
    constructor
    · simp only [solve2]
      split_ifs with h
      · simp [h]
      · simp [h]
    · intro r hr
      simp only [solve2] at hr
      split_ifs at hr with h
      rw [Option.some_inj] at hr
      subst hr
      obtain ⟨p1, p2, p3⟩ := simplifyFraction_props (e1.d * e2.b - e1.b * e2.d)
        (e1.a * e2.b - e1.b * e2.a) h
      obtain ⟨q1, q2, q3⟩ := simplifyFraction_props (e1.a * e2.d - e1.d * e2.a)
        (e1.a * e2.b - e1.b * e2.a) h
      exact ⟨rfl, rfl, rfl, rfl, p1, p2, p3, q1, q2, q3⟩
  · simp only [solve2, simplifyFraction_eq]
    norm_num [Int.gcd]
  · refine ⟨⟨2, 1, 2, 1, 1, 1⟩, ?_, rfl, rfl⟩
    simp only [solve2, simplifyFraction_eq]
    norm_num [Int.gcd]

/-- Witness for C6's conditional part at the second concrete system. -/
theorem solve2_spec_witness :
    solve2 ⟨2, 3, 0, 7⟩ ⟨1, -1, 0, 1⟩ = some ⟨2, 1, 2, 1, 1, 1⟩ ∧
    (⟨2, 1, 2, 1, 1, 1⟩ : Solve2Result).x = ((7 * (-1) - 3 * 1 : ℤ) : ℚ) / ((2 * (-1) - 3 * 1 : ℤ) : ℚ) := by
  have h := (solve2_spec.1 ⟨2, 3, 0, 7⟩ ⟨1, -1, 0, 1⟩).2 ⟨2, 1, 2, 1, 1, 1⟩
  have heq : solve2 ⟨2, 3, 0, 7⟩ ⟨1, -1, 0, 1⟩ = some ⟨2, 1, 2, 1, 1, 1⟩ := by
    simp only [solve2, simplifyFraction_eq]
    norm_num [Int.gcd]
  exact ⟨heq, (h heq).1⟩

theorem gen2x2Coeffs_components (L sa ma sb mb sc mc sd md : ℤ) :
    (gen2x2Coeffs L sa ma sb mb sc mc sd md).1 = L * sa * ma ∧
    (gen2x2Coeffs L sa ma sb mb sc mc sd md).2.1 = L * sb * mb ∧
    (gen2x2Coeffs L sa ma sb mb sc mc sd md).2.2.1 = L * sc * mc ∧
    ((gen2x2Coeffs L sa ma sb mb sc mc sd md).2.2.2 = L * sd * md ∨
     (gen2x2Coeffs L sa ma sb mb sc mc sd md).2.2.2 = L * sd * md + L) := by
  simp only [gen2x2Coeffs]
  split_ifs <;> simp

/-- A system whose right-hand sides are built from a candidate solution and
whose determinant is nonzero is solved by `solve2` exactly at that candidate. -/
theorem solve2_target (e1 e2 : EquationStd) (x y : ℚ)
    (hD : e1.a * e2.b - e1.b * e2.a ≠ 0)
    (h1 : (e1.d : ℚ) = (e1.a : ℚ) * x + (e1.b : ℚ) * y)
    (h2 : (e2.d : ℚ) = (e2.a : ℚ) * x + (e2.b : ℚ) * y) :
    ∃ r, solve2 e1 e2 = some r ∧ r.x = x ∧ r.y = y := by
  have hDq : ((e1.a * e2.b - e1.b * e2.a : ℤ) : ℚ) ≠ 0 := by exact_mod_cast hD
  refine ⟨⟨((e1.d * e2.b - e1.b * e2.d : ℤ) : ℚ) / ((e1.a * e2.b - e1.b * e2.a : ℤ) : ℚ),
           ((e1.a * e2.d - e1.d * e2.a : ℤ) : ℚ) / ((e1.a * e2.b - e1.b * e2.a : ℤ) : ℚ),
           (simplifyFraction (e1.d * e2.b - e1.b * e2.d) (e1.a * e2.b - e1.b * e2.a)).1,
           (simplifyFraction (e1.d * e2.b - e1.b * e2.d) (e1.a * e2.b - e1.b * e2.a)).2,
           (simplifyFraction (e1.a * e2.d - e1.d * e2.a) (e1.a * e2.b - e1.b * e2.a)).1,
           (simplifyFraction (e1.a * e2.d - e1.d * e2.a) (e1.a * e2.b - e1.b * e2.a)).2⟩,
         by simp only [solve2, if_neg hD], ?_, ?_⟩
  · show ((e1.d * e2.b - e1.b * e2.d : ℤ) : ℚ) / ((e1.a * e2.b - e1.b * e2.a : ℤ) : ℚ) = x
    rw [div_eq_iff hDq]
    push_cast
    linear_combination (e2.b : ℚ) * h1 - (e1.b : ℚ) * h2
  · show ((e1.a * e2.d - e1.d * e2.a : ℤ) : ℚ) / ((e1.a * e2.b - e1.b * e2.a : ℤ) : ℚ) = y
    rw [div_eq_iff hDq]
    push_cast
    linear_combination (e1.a : ℚ) * h2 - (e2.a : ℚ) * h1

/-- Multiplying a fraction `p/q` by an integer multiple of `q` yields an
integer value. -/
theorem mul_div_int (t qv p : ℤ) (hq : qv ≠ 0) (hdvd : qv ∣ t) :
    (t : ℚ) * ((p : ℚ) / (qv : ℚ)) = ((t / qv * p : ℤ) : ℚ) := by
  obtain ⟨u, hu⟩ := hdvd
  subst hu
  rw [Int.mul_ediv_cancel_left _ hq]
  have hqq : (qv : ℚ) ≠ 0 := by exact_mod_cast hq
  push_cast
  field_simp
  ring

/-- C2 (amended): for every 2x2 draw the emitted coefficient matrix is
non-singular -- when the drawn determinant is zero the perturbation `d += L`
shifts it to `a*L ≠ 0`.  For 3x3 draws whose determinant is zero, the
perturbation `A[2][2] += L` changes the determinant to exactly
`L*(A00*A11 - A01*A10)`, so it restores non-singularity only when the
top-left 2x2 minor is nonzero; a zero minor leaves the emitted system
singular (see the counterexample), which downstream code must surface via
the solver's no-solution signal. -/
theorem generated_det_nonzero :
    (∀ px qx py qy sa ma sb mb sc mc sd md : ℤ,
       1 ≤ qx → 1 ≤ qy → (sa = 1 ∨ sa = -1) → 1 ≤ ma →
       (gen2x2Eqs px qx py qy sa ma sb mb sc mc sd md).1.a *
           (gen2x2Eqs px qx py qy sa ma sb mb sc mc sd md).2.b -
         (gen2x2Eqs px qx py qy sa ma sb mb sc mc sd md).1.b *
           (gen2x2Eqs px qx py qy sa ma sb mb sc mc sd md).2.a ≠ 0) ∧
    (∀ (M : Mat3) (L : ℤ), det3 M = 0 →
       det3 (gen3x3Mat M L) = L * (M.a00 * M.a11 - M.a01 * M.a10)) := by
  constructor
  · intro px qx py qy sa ma sb mb sc mc sd md hqx hqy hsa hma
    have hL : 0 < lcm2 qx qy := lcm2_pos (by omega) (by omega)
    have h := gen2x2Coeffs_det_ne (lcm2 qx qy) sa ma sb mb sc mc sd md hL hsa hma
    simpa [gen2x2Eqs] using h
  · intro M L h
    simp only [gen3x3Mat, if_pos h]
    unfold det3 at h ⊢
    dsimp only
    linear_combination h

/-- C2 counterexample: the all-ones 3x3 draw (a legal draw: easy difficulty
magnitude 1, sign +1, `L = lcm3(1,1,1) = 1` in integer-answer mode) has
determinant zero, and after the documented perturbation `A[2][2] += L` the
determinant is still zero, contradicting the claim that the perturbation
always yields a non-singular displayed system. -/
theorem gen3x3_perturb_singular_cex :
    det3 ⟨1, 1, 1, 1, 1, 1, 1, 1, 1⟩ = 0 ∧
    det3 (gen3x3Mat ⟨1, 1, 1, 1, 1, 1, 1, 1, 1⟩ 1) = 0 ∧
    (1 : ℤ) ∈ base3 .easy ∧
    lcm3 1 1 1 = 1 := by
  refine ⟨by decide, by decide, by decide, ?_⟩
  simp [lcm3, lcm2_eq_lcm, Int.lcm]

/-- Witness for C2 at a concrete 2x2 draw and a concrete singular 3x3 draw
with nonzero top-left minor. -/
theorem generated_det_nonzero_witness :
    ((gen2x2Eqs 0 1 0 1 1 1 1 1 1 1 1 1).1.a *
         (gen2x2Eqs 0 1 0 1 1 1 1 1 1 1 1 1).2.b -
       (gen2x2Eqs 0 1 0 1 1 1 1 1 1 1 1 1).1.b *
         (gen2x2Eqs 0 1 0 1 1 1 1 1 1 1 1 1).2.a ≠ 0) ∧
    det3 (gen3x3Mat ⟨1, 1, 1, 2, 3, 4, 5, 6, 7⟩ 2) = 2 * (1 * 3 - 1 * 2) := by
  constructor
  · exact generated_det_nonzero.1 0 1 0 1 1 1 1 1 1 1 1 1 (by decide) (by decide)
      (Or.inl rfl) (by decide)
  · exact generated_det_nonzero.2 ⟨1, 1, 1, 2, 3, 4, 5, 6, 7⟩ 2 (by decide)

/-- C3: for every 2x2 generation draw (denominators at least 1, unit signs,
magnitudes at least 1 -- which covers all of the source's draw pools),
because every coefficient is `L*sign*magnitude` with `L = lcm2(qx, qy)`,
both right-hand sides `coefficient·target` are integers, so the
`Math.trunc` at generation time changes nothing (`E.i.d` equals the exact
rational value of the linear combination at the target), and the generated
system's exact solution as computed by `solve2` equals the chosen target
pair `(px/qx, py/qy)`. -/
theorem gen2x2_exact_solution (px qx py qy sa ma sb mb sc mc sd md : ℤ)
    (E : EquationStd × EquationStd) (x y : ℚ)
    (hqx : 1 ≤ qx) (hqy : 1 ≤ qy)
    (hsa : sa = 1 ∨ sa = -1) (hma : 1 ≤ ma)
    (hE : E = gen2x2Eqs px qx py qy sa ma sb mb sc mc sd md)
    (hx : x = (px : ℚ) / (qx : ℚ)) (hy : y = (py : ℚ) / (qy : ℚ)) :
    ((E.1.d : ℚ) = (E.1.a : ℚ) * x + (E.1.b : ℚ) * y) ∧
    ((E.2.d : ℚ) = (E.2.a : ℚ) * x + (E.2.b : ℚ) * y) ∧
    (∃ r, solve2 E.1 E.2 = some r ∧ r.x = x ∧ r.y = y) := by
  have hqx0 : qx ≠ 0 := by omega
  have hqy0 : qy ≠ 0 := by omega
  have hL : 0 < lcm2 qx qy := lcm2_pos hqx0 hqy0
  have hdx : qx ∣ lcm2 qx qy := by rw [lcm2_eq_lcm]; exact Int.dvd_lcm_left
  have hdy : qy ∣ lcm2 qx qy := by rw [lcm2_eq_lcm]; exact Int.dvd_lcm_right
  obtain ⟨hc1, hc2, hc3, hc4⟩ := gen2x2Coeffs_components (lcm2 qx qy) sa ma sb mb sc mc sd md
  set co := gen2x2Coeffs (lcm2 qx qy) sa ma sb mb sc mc sd md with hco
  have hdvd1 : qx ∣ co.1 := hc1 ▸ Dvd.dvd.mul_right (Dvd.dvd.mul_right hdx sa) ma
  have hdvd2 : qy ∣ co.2.1 := hc2 ▸ Dvd.dvd.mul_right (Dvd.dvd.mul_right hdy sb) mb
  have hdvd3 : qx ∣ co.2.2.1 := hc3 ▸ Dvd.dvd.mul_right (Dvd.dvd.mul_right hdx sc) mc
  have hdvd4 : qy ∣ co.2.2.2 := by
    rcases hc4 with h | h <;> rw [h]
    · exact Dvd.dvd.mul_right (Dvd.dvd.mul_right hdy sd) md
    · exact dvd_add (Dvd.dvd.mul_right (Dvd.dvd.mul_right hdy sd) md) hdy
  have key1 : (co.1 : ℚ) * x + (co.2.1 : ℚ) * y
      = ((co.1 / qx * px + co.2.1 / qy * py : ℤ) : ℚ) := by
    rw [hx, hy, mul_div_int _ _ _ hqx0 hdvd1, mul_div_int _ _ _ hqy0 hdvd2]
    push_cast
    ring
  have key2 : (co.2.2.1 : ℚ) * x + (co.2.2.2 : ℚ) * y
      = ((co.2.2.1 / qx * px + co.2.2.2 / qy * py : ℤ) : ℚ) := by
    rw [hx, hy, mul_div_int _ _ _ hqx0 hdvd3, mul_div_int _ _ _ hqy0 hdvd4]
    push_cast
    ring
  have hE1 : E.1 = ⟨co.1, co.2.1, 0, jsTrunc ((co.1 : ℚ) * x + (co.2.1 : ℚ) * y)⟩ := by
    rw [hE, hx, hy]
    simp only [gen2x2Eqs]
  have hE2 : E.2 = ⟨co.2.2.1, co.2.2.2, 0,
      jsTrunc ((co.2.2.1 : ℚ) * x + (co.2.2.2 : ℚ) * y)⟩ := by
    rw [hE, hx, hy]
    simp only [gen2x2Eqs]
  have hd1 : (E.1.d : ℚ) = (E.1.a : ℚ) * x + (E.1.b : ℚ) * y := by
    rw [hE1]
    show ((jsTrunc ((co.1 : ℚ) * x + (co.2.1 : ℚ) * y) : ℤ) : ℚ) = _
    rw [key1, jsTrunc_intCast, ← key1]
  have hd2 : (E.2.d : ℚ) = (E.2.a : ℚ) * x + (E.2.b : ℚ) * y := by
    rw [hE2]
    show ((jsTrunc ((co.2.2.1 : ℚ) * x + (co.2.2.2 : ℚ) * y) : ℤ) : ℚ) = _
    rw [key2, jsTrunc_intCast, ← key2]
  have hD : E.1.a * E.2.b - E.1.b * E.2.a ≠ 0 := by
    rw [hE1, hE2]
    exact gen2x2Coeffs_det_ne (lcm2 qx qy) sa ma sb mb sc mc sd md hL hsa hma
  exact ⟨hd1, hd2, solve2_target E.1 E.2 x y hD hd1 hd2⟩

/-- Witness for C3 at the draw `px=1, qx=2, py=-3, qy=4`, all signs `+1`,
all magnitudes `1` (so `L = 4`). -/
theorem gen2x2_exact_solution_witness :
    (((gen2x2Eqs 1 2 (-3) 4 1 1 1 1 1 1 1 1).1.d : ℚ)
        = ((gen2x2Eqs 1 2 (-3) 4 1 1 1 1 1 1 1 1).1.a : ℚ) * ((1 : ℚ) / 2)
          + ((gen2x2Eqs 1 2 (-3) 4 1 1 1 1 1 1 1 1).1.b : ℚ) * ((-3 : ℚ) / 4)) ∧
    (∃ r, solve2 (gen2x2Eqs 1 2 (-3) 4 1 1 1 1 1 1 1 1).1
            (gen2x2Eqs 1 2 (-3) 4 1 1 1 1 1 1 1 1).2 = some r ∧
          r.x = (1 : ℚ) / 2 ∧ r.y = (-3 : ℚ) / 4) := by
  have h := gen2x2_exact_solution 1 2 (-3) 4 1 1 1 1 1 1 1 1
    (gen2x2Eqs 1 2 (-3) 4 1 1 1 1 1 1 1 1) ((1 : ℚ) / 2) ((-3 : ℚ) / 4)
    (by decide) (by decide) (Or.inl rfl) (by decide) rfl (by norm_num) (by norm_num)
  exact ⟨h.1, h.2.2⟩

/-- C1 (amended): for every standard-form equation and every draw, the
`App.tsx` scramble satisfies `left - right = original` for each of the x, y,
z coefficients, and the right-side constant is `kL + d` -- not
`left_const - original_d` as the claim's formula states -- which is exactly
what makes moving every right-side term to the left reconstruct
`a·x + b·y + c·z = d`: the displayed equation has the same solution set as
the hidden standard form.  The hypothesis covers the source's use of
`includeZ`: it is false only for 2x2 equations, which are built with
`c = 0`. -/
theorem scramble_roundtrip_app (e : EquationStd) (includeZ : Bool) (axL byL czL kL : ℤ)
    (hz : includeZ = true ∨ e.c = 0) :
    (scrambleLeft includeZ axL byL czL kL).ax
        - (App.scrambleRight e includeZ axL byL czL kL).ax = e.a ∧
    (scrambleLeft includeZ axL byL czL kL).byv
        - (App.scrambleRight e includeZ axL byL czL kL).byv = e.b ∧
    (scrambleLeft includeZ axL byL czL kL).cz
        - (App.scrambleRight e includeZ axL byL czL kL).cz = e.c ∧
    (App.scrambleRight e includeZ axL byL czL kL).k
        = (scrambleLeft includeZ axL byL czL kL).k + e.d ∧
    (∀ x y z : ℚ,
      ((scrambleLeft includeZ axL byL czL kL).ax : ℚ) * x
          + ((scrambleLeft includeZ axL byL czL kL).byv : ℚ) * y
          + ((scrambleLeft includeZ axL byL czL kL).cz : ℚ) * z
          + ((scrambleLeft includeZ axL byL czL kL).k : ℚ)
        = ((App.scrambleRight e includeZ axL byL czL kL).ax : ℚ) * x
          + ((App.scrambleRight e includeZ axL byL czL kL).byv : ℚ) * y
          + ((App.scrambleRight e includeZ axL byL czL kL).cz : ℚ) * z
          + ((App.scrambleRight e includeZ axL byL czL kL).k : ℚ)
      ↔ (e.a : ℚ) * x + (e.b : ℚ) * y + (e.c : ℚ) * z = (e.d : ℚ)) := by
  have hcz : (if includeZ then czL else 0) - (if includeZ then czL - e.c else 0) = e.c := by
    cases includeZ with
    | false =>
      rcases hz with h | h
      · exact absurd h (by simp)
      · simp [h]
    | true => simp
  refine ⟨by simp [scrambleLeft, App.scrambleRight], by simp [scrambleLeft, App.scrambleRight],
    ?_, by simp [scrambleLeft, App.scrambleRight], ?_⟩
  · simpa [scrambleLeft, App.scrambleRight] using hcz
  · intro x y z
    have hczq : ((if includeZ then czL else 0 : ℤ) : ℚ) - ((if includeZ then czL - e.c else 0 : ℤ) : ℚ)
        = (e.c : ℚ) := by exact_mod_cast congrArg (fun t : ℤ => (t : ℚ)) hcz
    simp only [scrambleLeft, App.scrambleRight]
    constructor
    · intro h
      have h0 := sub_eq_zero.mpr h
      apply sub_eq_zero.mp
      calc (e.a : ℚ) * x + (e.b : ℚ) * y + (e.c : ℚ) * z - (e.d : ℚ)
          = ((axL : ℚ) * x + (byL : ℚ) * y + ((if includeZ then czL else 0 : ℤ) : ℚ) * z + (kL : ℚ))
            - (((axL - e.a : ℤ) : ℚ) * x + ((byL - e.b : ℤ) : ℚ) * y
               + ((if includeZ then czL - e.c else 0 : ℤ) : ℚ) * z + ((kL + e.d : ℤ) : ℚ)) := by
            push_cast
            push_cast at hczq
            linear_combination (-z) * hczq
        _ = 0 := h0
    · intro h
      have h0 := sub_eq_zero.mpr h
      apply sub_eq_zero.mp
      calc ((axL : ℚ) * x + (byL : ℚ) * y + ((if includeZ then czL else 0 : ℤ) : ℚ) * z + (kL : ℚ))
            - (((axL - e.a : ℤ) : ℚ) * x + ((byL - e.b : ℤ) : ℚ) * y
               + ((if includeZ then czL - e.c else 0 : ℤ) : ℚ) * z + ((kL + e.d : ℤ) : ℚ))
          = (e.a : ℚ) * x + (e.b : ℚ) * y + (e.c : ℚ) * z - (e.d : ℚ) := by
            push_cast
            push_cast at hczq
            linear_combination z * hczq
        _ = 0 := h0

/-- Witness for C1 at `e = ⟨2,-3,5,7⟩`, `includeZ = true`, draw `(1,2,3,4)`,
with the solution-set equivalence instantiated at `(x,y,z) = (1,2,3)`. -/
theorem scramble_roundtrip_app_witness :
    ((App.scrambleRight ⟨2, -3, 5, 7⟩ true 1 2 3 4).k
        = (scrambleLeft true 1 2 3 4).k + 7) ∧
    (((scrambleLeft true 1 2 3 4).ax : ℚ) * 1
          + ((scrambleLeft true 1 2 3 4).byv : ℚ) * 2
          + ((scrambleLeft true 1 2 3 4).cz : ℚ) * 3
          + ((scrambleLeft true 1 2 3 4).k : ℚ)
        = ((App.scrambleRight ⟨2, -3, 5, 7⟩ true 1 2 3 4).ax : ℚ) * 1
          + ((App.scrambleRight ⟨2, -3, 5, 7⟩ true 1 2 3 4).byv : ℚ) * 2
          + ((App.scrambleRight ⟨2, -3, 5, 7⟩ true 1 2 3 4).cz : ℚ) * 3
          + ((App.scrambleRight ⟨2, -3, 5, 7⟩ true 1 2 3 4).k : ℚ)
      ↔ (2 : ℚ) * 1 + (-3 : ℚ) * 2 + (5 : ℚ) * 3 = (7 : ℚ)) := by
  have h := scramble_roundtrip_app ⟨2, -3, 5, 7⟩ true 1 2 3 4 (Or.inl rfl)
  exact ⟨h.2.2.2.1, h.2.2.2.2 1 2 3⟩

/-- C1 counterexample: the claim's constant formula
`right_const = left_const - original_d` is false for the `App.tsx` scramble
(which computes `kL + d`): at `e = ⟨1,1,0,1⟩` and the draw `(0,0,0,0)` the
right constant is `1`, not `-1`.  The `part_000` variant does satisfy that
formula, but then fails the claim's solution-set conclusion: at the same
equation and draw its displayed equation holds at `(x,y) = (0,-1)` while the
hidden equation `x + y = 1` does not. -/
theorem scramble_const_relation_cex :
    (App.scrambleRight ⟨1, 1, 0, 1⟩ false 0 0 0 0).k = 1 ∧
    (App.scrambleRight ⟨1, 1, 0, 1⟩ false 0 0 0 0).k ≠ (scrambleLeft false 0 0 0 0).k - 1 ∧
    (Draft.scrambleRight ⟨1, 1, 0, 1⟩ false 0 0 0 0).k = (scrambleLeft false 0 0 0 0).k - 1 ∧
    (((scrambleLeft false 0 0 0 0).ax : ℚ) * 0 + ((scrambleLeft false 0 0 0 0).byv : ℚ) * (-1)
        + ((scrambleLeft false 0 0 0 0).cz : ℚ) * 0 + ((scrambleLeft false 0 0 0 0).k : ℚ)
      = ((Draft.scrambleRight ⟨1, 1, 0, 1⟩ false 0 0 0 0).ax : ℚ) * 0
        + ((Draft.scrambleRight ⟨1, 1, 0, 1⟩ false 0 0 0 0).byv : ℚ) * (-1)
        + ((Draft.scrambleRight ⟨1, 1, 0, 1⟩ false 0 0 0 0).cz : ℚ) * 0
        + ((Draft.scrambleRight ⟨1, 1, 0, 1⟩ false 0 0 0 0).k : ℚ)) ∧
    ¬ ((1 : ℚ) * 0 + (1 : ℚ) * (-1) = (1 : ℚ)) := by
  refine ⟨by decide, by decide, by decide, ?_, by norm_num⟩
  simp only [scrambleLeft, Draft.scrambleRight]
  norm_num

/-- C4 (amended): the two `scrambleLinear` implementations agree on every
variable coefficient of the right side, but their right-side constants
differ: `part_000`'s is `App.tsx`'s minus `2d`.  For identical draws the two
display strings coincide whenever `d = 0` (and only then, see the
counterexample). -/
theorem scramble_impls_relation (e : EquationStd) (includeZ : Bool) (axL byL czL kL : ℤ) :
    (App.scrambleRight e includeZ axL byL czL kL).ax
        = (Draft.scrambleRight e includeZ axL byL czL kL).ax ∧
    (App.scrambleRight e includeZ axL byL czL kL).byv
        = (Draft.scrambleRight e includeZ axL byL czL kL).byv ∧
    (App.scrambleRight e includeZ axL byL czL kL).cz
        = (Draft.scrambleRight e includeZ axL byL czL kL).cz ∧
    (Draft.scrambleRight e includeZ axL byL czL kL).k
        = (App.scrambleRight e includeZ axL byL czL kL).k - 2 * e.d ∧
    (e.d = 0 →
      App.scrambleLinear e includeZ axL byL czL kL
        = Draft.scrambleLinear e includeZ axL byL czL kL) := by
  refine ⟨rfl, rfl, rfl, by simp [App.scrambleRight, Draft.scrambleRight]; ring, ?_⟩
  intro h
  simp [App.scrambleLinear, Draft.scrambleLinear, App.scrambleRight, Draft.scrambleRight, h]

/-- Witness for C4 at an equation with `d = 0`. -/
theorem scramble_impls_relation_witness :
    App.scrambleLinear ⟨2, -3, 4, 0⟩ true 1 2 3 4
      = Draft.scrambleLinear ⟨2, -3, 4, 0⟩ true 1 2 3 4 :=
  (scramble_impls_relation ⟨2, -3, 4, 0⟩ true 1 2 3 4).2.2.2.2 rfl

/-- C4 counterexample: at `e = ⟨1,1,0,1⟩` (so `d = 1 ≠ 0`) and the draw
`(0,0,0,0)` the two implementations render different display strings. -/
theorem scramble_impls_differ_cex :
    App.scrambleLinear ⟨1, 1, 0, 1⟩ false 0 0 0 0 = "0 = 1 - x - y" ∧
    Draft.scrambleLinear ⟨1, 1, 0, 1⟩ false 0 0 0 0 = "0 = - 1 - x - y" ∧
    App.scrambleLinear ⟨1, 1, 0, 1⟩ false 0 0 0 0
      ≠ Draft.scrambleLinear ⟨1, 1, 0, 1⟩ false 0 0 0 0 := by
  refine ⟨?_, ?_, ?_⟩ <;> decide

theorem jsSign_eq_iff (u v : ℤ) (hu : u ≠ 0) (hv : v ≠ 0) :
    (jsSign u = jsSign v) ↔ (0 < u ↔ 0 < v) := by
  rcases lt_or_gt_of_ne hu with h1 | h1 <;> rcases lt_or_gt_of_ne hv with h2 | h2 <;>
    simp [jsSign, h1, h2, asymm h1, asymm h2]

theorem lcmXT_coe (e1 e2 : EquationStd) (ha1 : e1.a ≠ 0) (ha2 : e2.a ≠ 0) :
    lcmXT e1 e2 = ((Nat.lcm e1.a.natAbs e2.a.natAbs : ℤ) : WithTop ℤ) := by
  unfold lcmXT
  rw [if_neg (by push_neg; exact ⟨ha1, ha2⟩)]
  rw [lcm2_eq_lcm]
  unfold Int.lcm
  rw [Int.natAbs_abs, Int.natAbs_abs]

theorem lcmYT_coe (e1 e2 : EquationStd) (hb1 : e1.b ≠ 0) (hb2 : e2.b ≠ 0) :
    lcmYT e1 e2 = ((Nat.lcm e1.b.natAbs e2.b.natAbs : ℤ) : WithTop ℤ) := by
  unfold lcmYT
  rw [if_neg (by push_neg; exact ⟨hb1, hb2⟩)]
  rw [lcm2_eq_lcm]
  unfold Int.lcm
  rw [Int.natAbs_abs, Int.natAbs_abs]

/-- C10: for a 2x2 system whose four coefficients are all nonzero, the
worked-steps planner eliminates `x` exactly when
`lcm(|e1.a|, |e2.a|) ≤ lcm(|e1.b|, |e2.b|)` (so a tie eliminates `x`), and
the narrated combine operation is subtract (`-`) when the chosen variable's
two coefficients have equal sign and add (`+`) when they have opposite
sign. -/
theorem worked2x2_choice_spec (e1 e2 : EquationStd)
    (ha1 : e1.a ≠ 0) (ha2 : e2.a ≠ 0) (hb1 : e1.b ≠ 0) (hb2 : e2.b ≠ 0) :
    (worked2x2Elim e1 e2 = ElimVar.x ↔
       Nat.lcm e1.a.natAbs e2.a.natAbs ≤ Nat.lcm e1.b.natAbs e2.b.natAbs) ∧
    (worked2x2Op e1 e2 = "-" ↔
       (0 < (if worked2x2Elim e1 e2 = ElimVar.x then e1.a else e1.b) ↔
        0 < (if worked2x2Elim e1 e2 = ElimVar.x then e2.a else e2.b))) ∧
    (worked2x2Op e1 e2 = "-" ∨ worked2x2Op e1 e2 = "+") := by
  have hiff : lcmXT e1 e2 ≤ lcmYT e1 e2 ↔
      Nat.lcm e1.a.natAbs e2.a.natAbs ≤ Nat.lcm e1.b.natAbs e2.b.natAbs := by
    rw [lcmXT_coe e1 e2 ha1 ha2, lcmYT_coe e1 e2 hb1 hb2]
    rw [WithTop.coe_le_coe]
    exact_mod_cast Iff.rfl
  have helim : worked2x2Elim e1 e2 = ElimVar.x ↔
      Nat.lcm e1.a.natAbs e2.a.natAbs ≤ Nat.lcm e1.b.natAbs e2.b.natAbs := by
    unfold worked2x2Elim
    split_ifs with h
    · simp only [true_iff]
      exact hiff.mp h
    · constructor
      · intro hc
        exact absurd hc (by simp)
      · intro hc
        exact absurd (hiff.mpr hc) h
  refine ⟨helim, ?_, ?_⟩
  · cases hE : worked2x2Elim e1 e2 with
    | x =>
      rw [if_pos rfl, if_pos rfl]
      unfold worked2x2Op
      rw [hE]
      show (if jsSign e1.a = jsSign e2.a then "-" else "+") = "-" ↔ _
      split_ifs with hs
      · simp only [true_iff]
        exact (jsSign_eq_iff e1.a e2.a ha1 ha2).mp hs
      · constructor
        · intro hc
          exact absurd hc (by decide)
        · intro hc
          exact absurd ((jsSign_eq_iff e1.a e2.a ha1 ha2).mpr hc) hs
    | y =>
      rw [if_neg (by decide : ¬ (ElimVar.y = ElimVar.x)), if_neg (by decide : ¬ (ElimVar.y = ElimVar.x))]
      unfold worked2x2Op
      rw [hE]
      show (if jsSign e1.b = jsSign e2.b then "-" else "+") = "-" ↔ _
      split_ifs with hs
      · simp only [true_iff]
        exact (jsSign_eq_iff e1.b e2.b hb1 hb2).mp hs
      · constructor
        · intro hc
          exact absurd hc (by decide)
        · intro hc
          exact absurd ((jsSign_eq_iff e1.b e2.b hb1 hb2).mpr hc) hs
  · unfold worked2x2Op
    cases worked2x2Elim e1 e2 <;> split_ifs <;> simp

/-- Witness for C10 at `e1 = ⟨2,3,0,7⟩`, `e2 = ⟨1,-1,0,1⟩` (so
`lcmX = 2 ≤ 3 = lcmY`: eliminate `x`; signs of the `a` coefficients agree:
subtract). -/
theorem worked2x2_choice_spec_witness :
    (worked2x2Elim ⟨2, 3, 0, 7⟩ ⟨1, -1, 0, 1⟩ = ElimVar.x ↔
       Nat.lcm (2 : ℤ).natAbs (1 : ℤ).natAbs ≤ Nat.lcm (3 : ℤ).natAbs (-1 : ℤ).natAbs) ∧
    (worked2x2Op ⟨2, 3, 0, 7⟩ ⟨1, -1, 0, 1⟩ = "-" ↔
       (0 < (if worked2x2Elim ⟨2, 3, 0, 7⟩ ⟨1, -1, 0, 1⟩ = ElimVar.x then (2 : ℤ) else 3) ↔
        0 < (if worked2x2Elim ⟨2, 3, 0, 7⟩ ⟨1, -1, 0, 1⟩ = ElimVar.x then (1 : ℤ) else -1))) := by
  have h := worked2x2_choice_spec ⟨2, 3, 0, 7⟩ ⟨1, -1, 0, 1⟩
    (by decide) (by decide) (by decide) (by decide)
  exact ⟨h.1, h.2.1⟩

theorem jsRound_eq (x : ℚ) : jsRound x = round x := by
  rw [jsRound, round_eq, Rat.floor_def' (x + 1 / 2), Rat.floor_def]

/-- Loop invariant of `toRationalApprox`: after scanning denominators
`1..n` (ascending, keeping strictly smaller errors only), the best pair
consists of a denominator in `1..n` with numerator `round(x*q)`, the stored
error is its actual error, the error is minimal over all scanned
denominators, and every strictly smaller denominator has strictly larger
error (so the smallest qualifying denominator wins ties). -/
theorem rasScan_spec (x : ℚ) : ∀ n : ℕ, 1 ≤ n →
    (rasScan x n).1 = round (x * ((rasScan x n).2.1 : ℚ)) ∧
    1 ≤ (rasScan x n).2.1 ∧ (rasScan x n).2.1 ≤ n ∧
    (rasScan x n).2.2 = some |x - ((rasScan x n).1 : ℚ) / ((rasScan x n).2.1 : ℚ)| ∧
    (∀ q : ℕ, 1 ≤ q → q ≤ n →
      |x - ((rasScan x n).1 : ℚ) / ((rasScan x n).2.1 : ℚ)|
        ≤ |x - ((round (x * (q : ℚ)) : ℤ) : ℚ) / (q : ℚ)|) ∧
    (∀ q : ℕ, 1 ≤ q → q < (rasScan x n).2.1 →
      |x - ((rasScan x n).1 : ℚ) / ((rasScan x n).2.1 : ℚ)|
        < |x - ((round (x * (q : ℚ)) : ℤ) : ℚ) / (q : ℚ)|) := by
  intro n
  induction n with
  | zero => intro h; omega
  | succ m ih =>
    intro _
    by_cases hm : 1 ≤ m
    · obtain ⟨h1, h2, h3, h4, h5, h6⟩ := ih hm
      rw [show rasScan x (m + 1) = rasStep x (rasScan x m) (m + 1) from rfl]
      unfold rasStep
      simp only [jsRound_eq]
      rw [h4]
      dsimp only
      split_ifs with hlt
      · dsimp only
        refine ⟨rfl, by omega, le_refl _, rfl, ?_, ?_⟩
        · intro q hq1 hq2
          by_cases hqm : q ≤ m
          · exact le_of_lt (lt_of_lt_of_le hlt (h5 q hq1 hqm))
          · have hq : q = m + 1 := by omega
            subst hq
            exact le_refl _
        · intro q hq1 hq2
          have hqm : q ≤ m := by omega
          exact lt_of_lt_of_le hlt (h5 q hq1 hqm)
      · refine ⟨h1, h2, by omega, h4, ?_, h6⟩
        intro q hq1 hq2
        by_cases hqm : q ≤ m
        · exact h5 q hq1 hqm
        · have hq : q = m + 1 := by omega
          subst hq
          exact not_lt.mp hlt
    · have hm0 : m = 0 := by omega
      subst hm0
      rw [show rasScan x (0 + 1) = rasStep x (rasScan x 0) 1 from rfl,
          show rasScan x 0 = (0, 1, none) from rfl]
      unfold rasStep
      refine ⟨?_, le_refl _, le_refl _, rfl, ?_, ?_⟩
      · exact jsRound_eq _
      · intro q hq1 hq2
        have hq : q = 1 := by omega
        subst hq
        dsimp only
        rw [jsRound_eq]
      · intro q hq1 hq2
        dsimp only at hq2
        omega

/-- C8 (amended): for every rational `x` and `maxDen ≥ 1`,
`toRationalApprox` scans denominators `1..maxDen` ascending with numerator
`round(x*q)`, keeps only strictly smaller absolute errors (so the smallest
qualifying denominator wins ties: every smaller denominator has strictly
larger error), and returns the simplified fraction rendered as
`"num/den"` unconditionally -- it does not render a bare `"num"` when the
simplified denominator is 1 (that formatting rule belongs to `fracToText`,
which `toRationalApprox` does not call; see the counterexample). -/
theorem toRationalApprox_spec (x : ℚ) (maxDen : ℕ) (hmax : 1 ≤ maxDen) :
    1 ≤ (rasScan x maxDen).2.1 ∧ (rasScan x maxDen).2.1 ≤ maxDen ∧
    (rasScan x maxDen).1 = round (x * ((rasScan x maxDen).2.1 : ℚ)) ∧
    (∀ q : ℕ, 1 ≤ q → q ≤ maxDen →
      |x - ((rasScan x maxDen).1 : ℚ) / ((rasScan x maxDen).2.1 : ℚ)|
        ≤ |x - ((round (x * (q : ℚ)) : ℤ) : ℚ) / (q : ℚ)|) ∧
    (∀ q : ℕ, 1 ≤ q → q < (rasScan x maxDen).2.1 →
      |x - ((rasScan x maxDen).1 : ℚ) / ((rasScan x maxDen).2.1 : ℚ)|
        < |x - ((round (x * (q : ℚ)) : ℤ) : ℚ) / (q : ℚ)|) ∧
    toRationalApprox x maxDen
      = toString (simplifyFraction (rasScan x maxDen).1 ((rasScan x maxDen).2.1 : ℤ)).1
        ++ "/"
        ++ toString (simplifyFraction (rasScan x maxDen).1 ((rasScan x maxDen).2.1 : ℤ)).2 := by
  obtain ⟨h1, h2, h3, _, h5, h6⟩ := rasScan_spec x maxDen hmax
  exact ⟨h2, h3, h1, h5, h6, rfl⟩

/-- Witness for C8 at `x = 2/3`, `maxDen = 12`, with the minimality parts
instantiated at the scanned denominator `5`. -/
theorem toRationalApprox_spec_witness :
    1 ≤ (rasScan (2 / 3 : ℚ) 12).2.1 ∧
    (|(2 / 3 : ℚ) - ((rasScan (2 / 3 : ℚ) 12).1 : ℚ) / ((rasScan (2 / 3 : ℚ) 12).2.1 : ℚ)|
       ≤ |(2 / 3 : ℚ) - ((round ((2 / 3 : ℚ) * (5 : ℕ)) : ℤ) : ℚ) / ((5 : ℕ) : ℚ)|) := by
  have h := toRationalApprox_spec (2 / 3 : ℚ) 12 (by decide)
  exact ⟨h.1, h.2.2.2.1 5 (by decide) (by decide)⟩

/-- C8 counterexample: at `x = 2` the best pair is `(2, 1)` and the source
renders `"2/1"`, not the claim's `"2"` (which is what `fracToText` would
render). -/
theorem toRationalApprox_den_one_cex :
    toRationalApprox 2 12 = "2/1" ∧
    toRationalApprox 2 12 ≠ "2" ∧
    fracToText 2 1 = "2" := by
  obtain ⟨h1, h2, h3, h4, h5, h6⟩ := rasScan_spec 2 12 (by norm_num)
  have hr1 : round ((2 : ℚ) * ((1 : ℕ) : ℚ)) = 2 := by norm_num
  have herr1 : |(2 : ℚ) - ((round ((2 : ℚ) * ((1 : ℕ) : ℚ)) : ℤ) : ℚ) / ((1 : ℕ) : ℚ)| = 0 := by
    rw [hr1]
    norm_num
  have hq1 : (rasScan 2 12).2.1 = 1 := by
    by_contra hne
    have hgt : 1 < (rasScan 2 12).2.1 := by omega
    have := h6 1 (le_refl 1) hgt
    rw [herr1] at this
    exact absurd this (not_lt.mpr (abs_nonneg _))
  have hp : (rasScan 2 12).1 = 2 := by
    rw [h1, hq1]
    exact hr1
  have hstr : toRationalApprox 2 12 = "2/1" := by
    simp only [toRationalApprox]
    rw [hp, hq1, simplifyFraction_eq]
    norm_num [Int.gcd]
    decide
  exact ⟨hstr, by rw [hstr]; decide, by decide⟩

theorem approxOpt_true_iff (o : Option ℚ) (b : ℚ) :
    approxOpt o b = true ↔ ∃ v, o = some v ∧ |v - b| ≤ eps := by
  cases o with
  | none => simp [approxOpt]
  | some a => simp [approxOpt, approx]

/-- C7: for every problem and learner input, the answer check reports
correct exactly when every learner value parses and lies within absolute
tolerance `eps = 1e-6` of the exact solution coordinate (two values for 2x2,
three for 3x3); and when incorrect, the reported residual for equation `i`
is `a*x + b*y [+ c*z] - d` evaluated at the learner's values, with an
unparsable value (`NaN`) treated as `0` by `(v || 0)`. -/
theorem submit_check_spec :
    (∀ (e1 e2 : EquationStd) (tx ty : String) (s : Solve2Result),
      solve2 e1 e2 = some s →
      ∃ out, submitCheck2 e1 e2 tx ty = some out ∧
        (out.correct = true ↔
          ((∃ vx, App.parseFraction tx = some vx ∧ |vx - s.x| ≤ eps) ∧
           (∃ vy, App.parseFraction ty = some vy ∧ |vy - s.y| ≤ eps))) ∧
        (out.correct = false →
          out.residuals =
            [(e1.a : ℚ) * orZero (App.parseFraction tx)
               + (e1.b : ℚ) * orZero (App.parseFraction ty) - (e1.d : ℚ),
             (e2.a : ℚ) * orZero (App.parseFraction tx)
               + (e2.b : ℚ) * orZero (App.parseFraction ty) - (e2.d : ℚ)])) ∧
    (∀ (e1 e2 e3 : EquationStd) (tx ty tz : String) (t : ℚ × ℚ × ℚ),
      solve3 e1 e2 e3 = some t →
      ∃ out, submitCheck3 e1 e2 e3 tx ty tz = some out ∧
        (out.correct = true ↔
          ((∃ vx, App.parseFraction tx = some vx ∧ |vx - t.1| ≤ eps) ∧
           (∃ vy, App.parseFraction ty = some vy ∧ |vy - t.2.1| ≤ eps) ∧
           (∃ vz, App.parseFraction tz = some vz ∧ |vz - t.2.2| ≤ eps))) ∧
        (out.correct = false →
          out.residuals =
            [(e1.a : ℚ) * orZero (App.parseFraction tx)
               + (e1.b : ℚ) * orZero (App.parseFraction ty)
               + (e1.c : ℚ) * orZero (App.parseFraction tz) - (e1.d : ℚ),
             (e2.a : ℚ) * orZero (App.parseFraction tx)
               + (e2.b : ℚ) * orZero (App.parseFraction ty)
               + (e2.c : ℚ) * orZero (App.parseFraction tz) - (e2.d : ℚ),
             (e3.a : ℚ) * orZero (App.parseFraction tx)
               + (e3.b : ℚ) * orZero (App.parseFraction ty)
               + (e3.c : ℚ) * orZero (App.parseFraction tz) - (e3.d : ℚ)])) := by
  constructor
  · intro e1 e2 tx ty s h
    unfold submitCheck2
    rw [h]
    refine ⟨_, rfl, ?_, ?_⟩
    · show (approxOpt (App.parseFraction tx) s.x && approxOpt (App.parseFraction ty) s.y) = true ↔ _
      rw [Bool.and_eq_true, approxOpt_true_iff, approxOpt_true_iff]
    · intro hf
      show (if (approxOpt (App.parseFraction tx) s.x && approxOpt (App.parseFraction ty) s.y)
             then ([] : List ℚ) else _) = _
      have hf' : (approxOpt (App.parseFraction tx) s.x
          && approxOpt (App.parseFraction ty) s.y) = false := hf
      rw [hf']
      simp
  · intro e1 e2 e3 tx ty tz t h
    unfold submitCheck3
    rw [h]
    refine ⟨_, rfl, ?_, ?_⟩
    · show (approxOpt (App.parseFraction tx) t.1 && approxOpt (App.parseFraction ty) t.2.1
             && approxOpt (App.parseFraction tz) t.2.2) = true ↔ _
      rw [Bool.and_eq_true, Bool.and_eq_true, approxOpt_true_iff, approxOpt_true_iff,
        approxOpt_true_iff]
      tauto
    · intro hf
      show (if (approxOpt (App.parseFraction tx) t.1 && approxOpt (App.parseFraction ty) t.2.1
             && approxOpt (App.parseFraction tz) t.2.2)
             then ([] : List ℚ) else _) = _
      have hf' : (approxOpt (App.parseFraction tx) t.1 && approxOpt (App.parseFraction ty) t.2.1
          && approxOpt (App.parseFraction tz) t.2.2) = false := hf
      rw [hf']
      simp

/-- Witness for C7: the 2x2 system `2x+3y=7, x-y=1` with inputs `"2"`, `"1"`
and the 3x3 system `x=1, y=2, z=3` with inputs `"1"`, `"2"`, `"3"`. -/
theorem submit_check_spec_witness :
    (∃ out, submitCheck2 ⟨2, 3, 0, 7⟩ ⟨1, -1, 0, 1⟩ "2" "1" = some out ∧
        (out.correct = true ↔
          ((∃ vx, App.parseFraction "2" = some vx ∧
              |vx - (⟨2, 1, 2, 1, 1, 1⟩ : Solve2Result).x| ≤ eps) ∧
           (∃ vy, App.parseFraction "1" = some vy ∧
              |vy - (⟨2, 1, 2, 1, 1, 1⟩ : Solve2Result).y| ≤ eps))) ∧
        (out.correct = false →
          out.residuals =
            [((⟨2, 3, 0, 7⟩ : EquationStd).a : ℚ) * orZero (App.parseFraction "2")
               + ((⟨2, 3, 0, 7⟩ : EquationStd).b : ℚ) * orZero (App.parseFraction "1")
               - ((⟨2, 3, 0, 7⟩ : EquationStd).d : ℚ),
             ((⟨1, -1, 0, 1⟩ : EquationStd).a : ℚ) * orZero (App.parseFraction "2")
               + ((⟨1, -1, 0, 1⟩ : EquationStd).b : ℚ) * orZero (App.parseFraction "1")
               - ((⟨1, -1, 0, 1⟩ : EquationStd).d : ℚ)])) ∧
    (∃ out, submitCheck3 ⟨1, 0, 0, 1⟩ ⟨0, 1, 0, 2⟩ ⟨0, 0, 1, 3⟩ "1" "2" "3" = some out ∧
        (out.correct = true ↔
          ((∃ vx, App.parseFraction "1" = some vx ∧ |vx - ((1 : ℚ), (2 : ℚ), (3 : ℚ)).1| ≤ eps) ∧
           (∃ vy, App.parseFraction "2" = some vy ∧ |vy - ((1 : ℚ), (2 : ℚ), (3 : ℚ)).2.1| ≤ eps) ∧
           (∃ vz, App.parseFraction "3" = some vz ∧ |vz - ((1 : ℚ), (2 : ℚ), (3 : ℚ)).2.2| ≤ eps))) ∧
        (out.correct = false →
          out.residuals =
            [((⟨1, 0, 0, 1⟩ : EquationStd).a : ℚ) * orZero (App.parseFraction "1")
               + ((⟨1, 0, 0, 1⟩ : EquationStd).b : ℚ) * orZero (App.parseFraction "2")
               + ((⟨1, 0, 0, 1⟩ : EquationStd).c : ℚ) * orZero (App.parseFraction "3")
               - ((⟨1, 0, 0, 1⟩ : EquationStd).d : ℚ),
             ((⟨0, 1, 0, 2⟩ : EquationStd).a : ℚ) * orZero (App.parseFraction "1")
               + ((⟨0, 1, 0, 2⟩ : EquationStd).b : ℚ) * orZero (App.parseFraction "2")
               + ((⟨0, 1, 0, 2⟩ : EquationStd).c : ℚ) * orZero (App.parseFraction "3")
               - ((⟨0, 1, 0, 2⟩ : EquationStd).d : ℚ),
             ((⟨0, 0, 1, 3⟩ : EquationStd).a : ℚ) * orZero (App.parseFraction "1")
               + ((⟨0, 0, 1, 3⟩ : EquationStd).b : ℚ) * orZero (App.parseFraction "2")
               + ((⟨0, 0, 1, 3⟩ : EquationStd).c : ℚ) * orZero (App.parseFraction "3")
               - ((⟨0, 0, 1, 3⟩ : EquationStd).d : ℚ)])) := by
  constructor
  · exact submit_check_spec.1 ⟨2, 3, 0, 7⟩ ⟨1, -1, 0, 1⟩ "2" "1" ⟨2, 1, 2, 1, 1, 1⟩
      (by simp only [solve2, simplifyFraction_eq]; norm_num [Int.gcd])
  · exact submit_check_spec.2 ⟨1, 0, 0, 1⟩ ⟨0, 1, 0, 2⟩ ⟨0, 0, 1, 3⟩ "1" "2" "3" (1, 2, 3)
      (by simp only [solve3, rowOf, elimCol0, elimCol1, tol]; norm_num)

/-- C5 (amended): `App.tsx`'s `parseFraction` accepts exactly: a bare
JS-numeric string -- a signed decimal literal, or an unsigned
hex/binary/octal literal (`0x`/`0b`/`0o`) -- or a string containing `/`
whose first two `/`-separated parts are finite JS numerics (not necessarily
integers) with nonzero denominator; parts beyond the second are ignored
(the `part_000` variant instead rejects more than one slash); `q = 0`,
empty input and unparsable text are parse failures (`NaN`, modelled
`none`), never a silent zero.  The conjuncts pin each clause: the
bare-number path, decimal and negative literals, integer and non-integer
fractions, extra slash parts (accepted by `App.tsx`, rejected by
`part_000`), zero denominator, empty string, garbage, an empty middle part
(`Number("") = 0` makes the denominator zero, hence NaN), hexadecimal
literals bare and as a fraction part, a signed hexadecimal literal
(rejected, as in JS), and NBSP-whitespace trimming. -/
theorem parseFraction_spec :
    (∀ txt : String, listContains '/' (listTrim txt.toList) = false →
       App.parseFraction txt =
         (if listTrim txt.toList = [] then none else jsNumL (listTrim txt.toList))) ∧
    App.parseFraction "2.5" = some (5 / 2) ∧
    App.parseFraction "-3" = some (-3) ∧
    App.parseFraction "3/4" = some (3 / 4) ∧
    App.parseFraction "1.5/3" = some (1 / 2) ∧
    App.parseFraction "1/2/3" = some (1 / 2) ∧
    Draft.parseFraction "1/2/3" = none ∧
    App.parseFraction "1/0" = none ∧
    App.parseFraction "" = none ∧
    App.parseFraction "abc" = none ∧
    App.parseFraction "1//2" = none ∧
    App.parseFraction "0x10" = some 16 ∧
    App.parseFraction "0x10/2" = some 8 ∧
    App.parseFraction "-0x10" = none ∧
    App.parseFraction "\u00A02.5\u00A0" = some (5 / 2) := by
  refine ⟨?_, ?_, ?_, ?_, ?_, ?_, rfl, ?_, rfl, rfl, ?_, ?_, ?_, rfl, ?_⟩
  · intro txt h
    simp only [App.parseFraction]
    split_ifs with h1 h2
    · rfl
    · rw [h] at h2
      exact absurd h2 (by decide)
    · rfl
  · rw [show App.parseFraction "2.5" = some (mkVal false 2 5 1 false 0) from rfl]
    norm_num [mkVal]
  · rw [show App.parseFraction "-3" = some (mkVal true 3 0 0 false 0) from rfl]
    norm_num [mkVal]
  · rw [show App.parseFraction "3/4"
        = (if mkVal false 4 0 0 false 0 = 0 then none
           else some (mkVal false 3 0 0 false 0 / mkVal false 4 0 0 false 0)) from rfl]
    rw [if_neg (by norm_num [mkVal])]
    norm_num [mkVal]
  · rw [show App.parseFraction "1.5/3"
        = (if mkVal false 3 0 0 false 0 = 0 then none
           else some (mkVal false 1 5 1 false 0 / mkVal false 3 0 0 false 0)) from rfl]
    rw [if_neg (by norm_num [mkVal])]
    norm_num [mkVal]
  · rw [show App.parseFraction "1/2/3"
        = (if mkVal false 2 0 0 false 0 = 0 then none
           else some (mkVal false 1 0 0 false 0 / mkVal false 2 0 0 false 0)) from rfl]
    rw [if_neg (by norm_num [mkVal])]
    norm_num [mkVal]
  · rw [show App.parseFraction "1/0"
        = (if mkVal false 0 0 0 false 0 = 0 then none
           else some (mkVal false 1 0 0 false 0 / mkVal false 0 0 0 false 0)) from rfl]
    rw [if_pos (by norm_num [mkVal])]
  · rw [show App.parseFraction "1//2"
        = (if (0 : ℚ) = 0 then none else some (mkVal false 1 0 0 false 0 / 0)) from rfl]
    rw [if_pos rfl]
  · have hv : radixVal 16 ['1', '0'] = 16 := by decide
    rw [show App.parseFraction "0x10" = some (((radixVal 16 ['1', '0'] : ℕ) : ℚ)) from rfl, hv]
    norm_num
  · have hv : radixVal 16 ['1', '0'] = 16 := by decide
    rw [show App.parseFraction "0x10/2"
        = (if mkVal false 2 0 0 false 0 = 0 then none
           else some (((radixVal 16 ['1', '0'] : ℕ) : ℚ) / mkVal false 2 0 0 false 0)) from rfl,
      if_neg (by norm_num [mkVal]), hv]
    norm_num [mkVal]
  · rw [show App.parseFraction "\u00A02.5\u00A0" = some (mkVal false 2 5 1 false 0) from rfl]
    norm_num [mkVal]

/-- Witness for C5's bare-number conjunct at `txt = "2.5"`. -/
theorem parseFraction_spec_witness :
    App.parseFraction "2.5"
      = (if listTrim "2.5".toList = [] then none else jsNumL (listTrim "2.5".toList)) :=
  parseFraction_spec.1 "2.5" (by decide)

/-- C5 counterexample: `"1.5/3"` has a non-integer numerator part and
`"1/2/3"` has two slashes; the claim says both must be parse failures
(`NaN`), but `App.tsx`'s `parseFraction` accepts both. -/
theorem parseFraction_noninteger_cex :
    App.parseFraction "1.5/3" = some (1 / 2) ∧
    App.parseFraction "1.5/3" ≠ none ∧
    App.parseFraction "1/2/3" ≠ none := by
  have h15 : App.parseFraction "1.5/3" = some (1 / 2) := by
    rw [show App.parseFraction "1.5/3"
        = (if mkVal false 3 0 0 false 0 = 0 then none
           else some (mkVal false 1 5 1 false 0 / mkVal false 3 0 0 false 0)) from rfl]
    rw [if_neg (by norm_num [mkVal])]
    norm_num [mkVal]
  have h123 : App.parseFraction "1/2/3" = some (1 / 2) := by
    rw [show App.parseFraction "1/2/3"
        = (if mkVal false 2 0 0 false 0 = 0 then none
           else some (mkVal false 1 0 0 false 0 / mkVal false 2 0 0 false 0)) from rfl]
    rw [if_neg (by norm_num [mkVal])]
    norm_num [mkVal]
  exact ⟨h15, by rw [h15]; exact Option.some_ne_none _, by rw [h123]; exact Option.some_ne_none _⟩
